import Mathlib

/-!
# Clean Todo CLI (`todo.js`): a shallow embedding

The program keeps a list of tasks in one JSON file and offers `add`, `list`,
`complete` and `remove`, either as a one-shot command or from an interactive
prompt.  This development embeds the functions of `todo.js` as Lean
definitions and proves properties of them.

Conventions of the embedding

* A JavaScript string is a list of characters (`JSString`).
* The file system, the clock and the console are explicit: a function that
  touches them takes the `Storage` (and, where it writes or reads the clock,
  an `Env`) and returns a `Run` holding its completion, the storage afterwards
  and the lines it printed.
* A JavaScript function either returns a value or throws; `Completion` records
  which.
-/

namespace Todo

/-! ## Strings -/

/-- A JavaScript string, as the list of its characters. -/
abbrev JSString := List Char

/-- The double quote character. -/
def dquote : Char := Char.ofNat 34

/-- The single quote character. -/
def squote : Char := Char.ofNat 39

/-- The characters ECMAScript treats as white space or line terminator: the
set removed by `String.prototype.trim`, matched by the regular expression
class `\s` and skipped by `parseInt`. -/
def isWhiteSpace (c : Char) : Bool :=
  let n := c.toNat
  [0x09, 0x0A, 0x0B, 0x0C, 0x0D, 0x20, 0xA0, 0x1680, 0x2028, 0x2029, 0x202F, 0x205F,
    0x3000, 0xFEFF].contains n || (0x2000 ≤ n && n ≤ 0x200A)

/-- The regular expression class `\w`: `[A-Za-z0-9_]`. -/
def isWordChar (c : Char) : Bool :=
  let n := c.toNat
  (65 ≤ n && n ≤ 90) || (97 ≤ n && n ≤ 122) || (48 ≤ n && n ≤ 57) || n = 95

/-- The method `String.prototype.trim`: white space removed at both ends. -/
def trim (s : JSString) : JSString :=
  (s.dropWhile isWhiteSpace).rdropWhile isWhiteSpace

/-! ## Lower case

`String.prototype.toLowerCase` follows the default case conversion of Unicode.
Its data are given here as of Unicode 14.0: the simple lower-case mappings, the
one unconditional special mapping (`İ`, U+0130) and the two character classes
that decide the form of a capital sigma at the end of a word. -/

/-- Lower case of one character of the Basic Latin block (`A`..`Z` become
`a`..`z`); every other character is kept. -/
def lowerChar (c : Char) : Char :=
  if 65 ≤ c.toNat ∧ c.toNat ≤ 90 then Char.ofNat (c.toNat + 32) else c

/-- The simple lower-case mappings outside Basic Latin, in runs
`(first, last, step, image)`: the code points `first`, `first + step`, ...,
`last` are mapped to `image` plus their distance from `first`. -/
def lowerCaseRuns : List (Nat × Nat × Nat × Nat) :=
  [(192, 214, 1, 224), (216, 222, 1, 248), (256, 302, 2, 257), (306, 310, 2, 307),
   (313, 327, 2, 314), (330, 374, 2, 331), (376, 376, 1, 255), (377, 381, 2, 378),
   (385, 385, 1, 595), (386, 388, 2, 387), (390, 390, 1, 596), (391, 391, 1, 392),
   (393, 394, 1, 598), (395, 395, 1, 396), (398, 398, 1, 477), (399, 399, 1, 601),
   (400, 400, 1, 603), (401, 401, 1, 402), (403, 403, 1, 608), (404, 404, 1, 611),
   (406, 406, 1, 617), (407, 407, 1, 616), (408, 408, 1, 409), (412, 412, 1, 623),
   (413, 413, 1, 626), (415, 415, 1, 629), (416, 420, 2, 417), (422, 422, 1, 640),
   (423, 423, 1, 424), (425, 425, 1, 643), (428, 428, 1, 429), (430, 430, 1, 648),
   (431, 431, 1, 432), (433, 434, 1, 650), (435, 437, 2, 436), (439, 439, 1, 658),
   (440, 440, 1, 441), (444, 444, 1, 445), (452, 452, 1, 454), (453, 453, 1, 454),
   (455, 455, 1, 457), (456, 456, 1, 457), (458, 458, 1, 460), (459, 475, 2, 460),
   (478, 494, 2, 479), (497, 497, 1, 499), (498, 500, 2, 499), (502, 502, 1, 405),
   (503, 503, 1, 447), (504, 542, 2, 505), (544, 544, 1, 414), (546, 562, 2, 547),
   (570, 570, 1, 11365), (571, 571, 1, 572), (573, 573, 1, 410), (574, 574, 1, 11366),
   (577, 577, 1, 578), (579, 579, 1, 384), (580, 580, 1, 649), (581, 581, 1, 652),
   (582, 590, 2, 583), (880, 882, 2, 881), (886, 886, 1, 887), (895, 895, 1, 1011),
   (902, 902, 1, 940), (904, 906, 1, 941), (908, 908, 1, 972), (910, 911, 1, 973),
   (913, 929, 1, 945), (931, 939, 1, 963), (975, 975, 1, 983), (984, 1006, 2, 985),
   (1012, 1012, 1, 952), (1015, 1015, 1, 1016), (1017, 1017, 1, 1010), (1018, 1018, 1, 1019),
   (1021, 1023, 1, 891), (1024, 1039, 1, 1104), (1040, 1071, 1, 1072), (1120, 1152, 2, 1121),
   (1162, 1214, 2, 1163), (1216, 1216, 1, 1231), (1217, 1229, 2, 1218), (1232, 1326, 2, 1233),
   (1329, 1366, 1, 1377), (4256, 4293, 1, 11520), (4295, 4295, 1, 11559), (4301, 4301, 1, 11565),
   (5024, 5103, 1, 43888), (5104, 5109, 1, 5112), (7312, 7354, 1, 4304), (7357, 7359, 1, 4349),
   (7680, 7828, 2, 7681), (7838, 7838, 1, 223), (7840, 7934, 2, 7841), (7944, 7951, 1, 7936),
   (7960, 7965, 1, 7952), (7976, 7983, 1, 7968), (7992, 7999, 1, 7984), (8008, 8013, 1, 8000),
   (8025, 8031, 2, 8017), (8040, 8047, 1, 8032), (8072, 8079, 1, 8064), (8088, 8095, 1, 8080),
   (8104, 8111, 1, 8096), (8120, 8121, 1, 8112), (8122, 8123, 1, 8048), (8124, 8124, 1, 8115),
   (8136, 8139, 1, 8050), (8140, 8140, 1, 8131), (8152, 8153, 1, 8144), (8154, 8155, 1, 8054),
   (8168, 8169, 1, 8160), (8170, 8171, 1, 8058), (8172, 8172, 1, 8165), (8184, 8185, 1, 8056),
   (8186, 8187, 1, 8060), (8188, 8188, 1, 8179), (8486, 8486, 1, 969), (8490, 8490, 1, 107),
   (8491, 8491, 1, 229), (8498, 8498, 1, 8526), (8544, 8559, 1, 8560), (8579, 8579, 1, 8580),
   (9398, 9423, 1, 9424), (11264, 11311, 1, 11312), (11360, 11360, 1, 11361),
   (11362, 11362, 1, 619), (11363, 11363, 1, 7549), (11364, 11364, 1, 637),
   (11367, 11371, 2, 11368), (11373, 11373, 1, 593), (11374, 11374, 1, 625),
   (11375, 11375, 1, 592), (11376, 11376, 1, 594), (11378, 11378, 1, 11379),
   (11381, 11381, 1, 11382), (11390, 11391, 1, 575), (11392, 11490, 2, 11393),
   (11499, 11501, 2, 11500), (11506, 11506, 1, 11507), (42560, 42604, 2, 42561),
   (42624, 42650, 2, 42625), (42786, 42798, 2, 42787), (42802, 42862, 2, 42803),
   (42873, 42875, 2, 42874), (42877, 42877, 1, 7545), (42878, 42886, 2, 42879),
   (42891, 42891, 1, 42892), (42893, 42893, 1, 613), (42896, 42898, 2, 42897),
   (42902, 42920, 2, 42903), (42922, 42922, 1, 614), (42923, 42923, 1, 604),
   (42924, 42924, 1, 609), (42925, 42925, 1, 620), (42926, 42926, 1, 618),
   (42928, 42928, 1, 670), (42929, 42929, 1, 647), (42930, 42930, 1, 669),
   (42931, 42931, 1, 43859), (42932, 42946, 2, 42933), (42948, 42948, 1, 42900),
   (42949, 42949, 1, 642), (42950, 42950, 1, 7566), (42951, 42953, 2, 42952),
   (42960, 42960, 1, 42961), (42966, 42968, 2, 42967), (42997, 42997, 1, 42998),
   (65313, 65338, 1, 65345), (66560, 66599, 1, 66600), (66736, 66771, 1, 66776),
   (66928, 66938, 1, 66967), (66940, 66954, 1, 66979), (66956, 66962, 1, 66995),
   (66964, 66965, 1, 67003), (68736, 68786, 1, 68800), (71840, 71871, 1, 71872),
   (93760, 93791, 1, 93792), (125184, 125217, 1, 125218)]

/-- The ranges `(first, last)` of the case-ignorable characters. -/
def caseIgnorableRanges : List (Nat × Nat) :=
  [(39, 39), (46, 46), (58, 58), (94, 94), (96, 96), (168, 168), (173, 173), (175, 175),
   (180, 180), (183, 184), (688, 879), (884, 885), (890, 890), (900, 901), (903, 903),
   (1155, 1161), (1369, 1369), (1375, 1375), (1425, 1469), (1471, 1471), (1473, 1474),
   (1476, 1477), (1479, 1479), (1524, 1524), (1536, 1541), (1552, 1562), (1564, 1564),
   (1600, 1600), (1611, 1631), (1648, 1648), (1750, 1757), (1759, 1768), (1770, 1773),
   (1807, 1807), (1809, 1809), (1840, 1866), (1958, 1968), (2027, 2037), (2042, 2042),
   (2045, 2045), (2070, 2093), (2137, 2139), (2184, 2184), (2192, 2193), (2200, 2207),
   (2249, 2306), (2362, 2362), (2364, 2364), (2369, 2376), (2381, 2381), (2385, 2391),
   (2402, 2403), (2417, 2417), (2433, 2433), (2492, 2492), (2497, 2500), (2509, 2509),
   (2530, 2531), (2558, 2558), (2561, 2562), (2620, 2620), (2625, 2626), (2631, 2632),
   (2635, 2637), (2641, 2641), (2672, 2673), (2677, 2677), (2689, 2690), (2748, 2748),
   (2753, 2757), (2759, 2760), (2765, 2765), (2786, 2787), (2810, 2815), (2817, 2817),
   (2876, 2876), (2879, 2879), (2881, 2884), (2893, 2893), (2901, 2902), (2914, 2915),
   (2946, 2946), (3008, 3008), (3021, 3021), (3072, 3072), (3076, 3076), (3132, 3132),
   (3134, 3136), (3142, 3144), (3146, 3149), (3157, 3158), (3170, 3171), (3201, 3201),
   (3260, 3260), (3263, 3263), (3270, 3270), (3276, 3277), (3298, 3299), (3328, 3329),
   (3387, 3388), (3393, 3396), (3405, 3405), (3426, 3427), (3457, 3457), (3530, 3530),
   (3538, 3540), (3542, 3542), (3633, 3633), (3636, 3642), (3654, 3662), (3761, 3761),
   (3764, 3772), (3782, 3782), (3784, 3789), (3864, 3865), (3893, 3893), (3895, 3895),
   (3897, 3897), (3953, 3966), (3968, 3972), (3974, 3975), (3981, 3991), (3993, 4028),
   (4038, 4038), (4141, 4144), (4146, 4151), (4153, 4154), (4157, 4158), (4184, 4185),
   (4190, 4192), (4209, 4212), (4226, 4226), (4229, 4230), (4237, 4237), (4253, 4253),
   (4348, 4348), (4957, 4959), (5906, 5908), (5938, 5939), (5970, 5971), (6002, 6003),
   (6068, 6069), (6071, 6077), (6086, 6086), (6089, 6099), (6103, 6103), (6109, 6109),
   (6155, 6159), (6211, 6211), (6277, 6278), (6313, 6313), (6432, 6434), (6439, 6440),
   (6450, 6450), (6457, 6459), (6679, 6680), (6683, 6683), (6742, 6742), (6744, 6750),
   (6752, 6752), (6754, 6754), (6757, 6764), (6771, 6780), (6783, 6783), (6823, 6823),
   (6832, 6862), (6912, 6915), (6964, 6964), (6966, 6970), (6972, 6972), (6978, 6978),
   (7019, 7027), (7040, 7041), (7074, 7077), (7080, 7081), (7083, 7085), (7142, 7142),
   (7144, 7145), (7149, 7149), (7151, 7153), (7212, 7219), (7222, 7223), (7288, 7293),
   (7376, 7378), (7380, 7392), (7394, 7400), (7405, 7405), (7412, 7412), (7416, 7417),
   (7468, 7530), (7544, 7544), (7579, 7679), (8125, 8125), (8127, 8129), (8141, 8143),
   (8157, 8159), (8173, 8175), (8189, 8190), (8203, 8207), (8216, 8217), (8228, 8228),
   (8231, 8231), (8234, 8238), (8288, 8292), (8294, 8303), (8305, 8305), (8319, 8319),
   (8336, 8348), (8400, 8432), (11388, 11389), (11503, 11505), (11631, 11631), (11647, 11647),
   (11744, 11775), (11823, 11823), (12293, 12293), (12330, 12333), (12337, 12341),
   (12347, 12347), (12441, 12446), (12540, 12542), (40981, 40981), (42232, 42237),
   (42508, 42508), (42607, 42610), (42612, 42621), (42623, 42623), (42652, 42655),
   (42736, 42737), (42752, 42785), (42864, 42864), (42888, 42890), (42994, 42996),
   (43000, 43001), (43010, 43010), (43014, 43014), (43019, 43019), (43045, 43046),
   (43052, 43052), (43204, 43205), (43232, 43249), (43263, 43263), (43302, 43309),
   (43335, 43345), (43392, 43394), (43443, 43443), (43446, 43449), (43452, 43453),
   (43471, 43471), (43493, 43494), (43561, 43566), (43569, 43570), (43573, 43574),
   (43587, 43587), (43596, 43596), (43632, 43632), (43644, 43644), (43696, 43696),
   (43698, 43700), (43703, 43704), (43710, 43711), (43713, 43713), (43741, 43741),
   (43756, 43757), (43763, 43764), (43766, 43766), (43867, 43871), (43881, 43883),
   (44005, 44005), (44008, 44008), (44013, 44013), (64286, 64286), (64434, 64450),
   (65024, 65039), (65043, 65043), (65056, 65071), (65106, 65106), (65109, 65109),
   (65279, 65279), (65287, 65287), (65294, 65294), (65306, 65306), (65342, 65342),
   (65344, 65344), (65392, 65392), (65438, 65439), (65507, 65507), (65529, 65531),
   (66045, 66045), (66272, 66272), (66422, 66426), (67456, 67461), (67463, 67504),
   (67506, 67514), (68097, 68099), (68101, 68102), (68108, 68111), (68152, 68154),
   (68159, 68159), (68325, 68326), (68900, 68903), (69291, 69292), (69446, 69456),
   (69506, 69509), (69633, 69633), (69688, 69702), (69744, 69744), (69747, 69748),
   (69759, 69761), (69811, 69814), (69817, 69818), (69821, 69821), (69826, 69826),
   (69837, 69837), (69888, 69890), (69927, 69931), (69933, 69940), (70003, 70003),
   (70016, 70017), (70070, 70078), (70089, 70092), (70095, 70095), (70191, 70193),
   (70196, 70196), (70198, 70199), (70206, 70206), (70367, 70367), (70371, 70378),
   (70400, 70401), (70459, 70460), (70464, 70464), (70502, 70508), (70512, 70516),
   (70712, 70719), (70722, 70724), (70726, 70726), (70750, 70750), (70835, 70840),
   (70842, 70842), (70847, 70848), (70850, 70851), (71090, 71093), (71100, 71101),
   (71103, 71104), (71132, 71133), (71219, 71226), (71229, 71229), (71231, 71232),
   (71339, 71339), (71341, 71341), (71344, 71349), (71351, 71351), (71453, 71455),
   (71458, 71461), (71463, 71467), (71727, 71735), (71737, 71738), (71995, 71996),
   (71998, 71998), (72003, 72003), (72148, 72151), (72154, 72155), (72160, 72160),
   (72193, 72202), (72243, 72248), (72251, 72254), (72263, 72263), (72273, 72278),
   (72281, 72283), (72330, 72342), (72344, 72345), (72752, 72758), (72760, 72765),
   (72767, 72767), (72850, 72871), (72874, 72880), (72882, 72883), (72885, 72886),
   (73009, 73014), (73018, 73018), (73020, 73021), (73023, 73029), (73031, 73031),
   (73104, 73105), (73109, 73109), (73111, 73111), (73459, 73460), (78896, 78904),
   (92912, 92916), (92976, 92982), (92992, 92995), (94031, 94031), (94095, 94111),
   (94176, 94177), (94179, 94180), (110576, 110579), (110581, 110587), (110589, 110590),
   (113821, 113822), (113824, 113827), (118528, 118573), (118576, 118598), (119143, 119145),
   (119155, 119170), (119173, 119179), (119210, 119213), (119362, 119364), (121344, 121398),
   (121403, 121452), (121461, 121461), (121476, 121476), (121499, 121503), (121505, 121519),
   (122880, 122886), (122888, 122904), (122907, 122913), (122915, 122916), (122918, 122922),
   (123184, 123197), (123566, 123566), (123628, 123631), (125136, 125142), (125252, 125259),
   (127995, 127999), (917505, 917505), (917536, 917631), (917760, 917999)]

/-- The ranges `(first, last)` of the cased characters. -/
def casedRanges : List (Nat × Nat) :=
  [(65, 90), (97, 122), (170, 170), (181, 181), (186, 186), (192, 214), (216, 246), (248, 442),
   (444, 447), (452, 659), (661, 696), (704, 705), (736, 740), (837, 837), (880, 883),
   (886, 887), (890, 893), (895, 895), (902, 902), (904, 906), (908, 908), (910, 929),
   (931, 1013), (1015, 1153), (1162, 1327), (1329, 1366), (1376, 1416), (4256, 4293),
   (4295, 4295), (4301, 4301), (4304, 4346), (4349, 4351), (5024, 5109), (5112, 5117),
   (7296, 7304), (7312, 7354), (7357, 7359), (7424, 7615), (7680, 7957), (7960, 7965),
   (7968, 8005), (8008, 8013), (8016, 8023), (8025, 8025), (8027, 8027), (8029, 8029),
   (8031, 8061), (8064, 8116), (8118, 8124), (8126, 8126), (8130, 8132), (8134, 8140),
   (8144, 8147), (8150, 8155), (8160, 8172), (8178, 8180), (8182, 8188), (8305, 8305),
   (8319, 8319), (8336, 8348), (8450, 8450), (8455, 8455), (8458, 8467), (8469, 8469),
   (8473, 8477), (8484, 8484), (8486, 8486), (8488, 8488), (8490, 8493), (8495, 8500),
   (8505, 8505), (8508, 8511), (8517, 8521), (8526, 8526), (8544, 8575), (8579, 8580),
   (9398, 9449), (11264, 11492), (11499, 11502), (11506, 11507), (11520, 11557), (11559, 11559),
   (11565, 11565), (42560, 42605), (42624, 42653), (42786, 42887), (42891, 42894),
   (42896, 42954), (42960, 42961), (42963, 42963), (42965, 42969), (42997, 42998),
   (43000, 43002), (43824, 43866), (43868, 43880), (43888, 43967), (64256, 64262),
   (64275, 64279), (65313, 65338), (65345, 65370), (66560, 66639), (66736, 66771),
   (66776, 66811), (66928, 66938), (66940, 66954), (66956, 66962), (66964, 66965),
   (66967, 66977), (66979, 66993), (66995, 67001), (67003, 67004), (67456, 67456),
   (67459, 67461), (67463, 67504), (67506, 67514), (68736, 68786), (68800, 68850),
   (71840, 71903), (93760, 93823), (119808, 119892), (119894, 119964), (119966, 119967),
   (119970, 119970), (119973, 119974), (119977, 119980), (119982, 119993), (119995, 119995),
   (119997, 120003), (120005, 120069), (120071, 120074), (120077, 120084), (120086, 120092),
   (120094, 120121), (120123, 120126), (120128, 120132), (120134, 120134), (120138, 120144),
   (120146, 120485), (120488, 120512), (120514, 120538), (120540, 120570), (120572, 120596),
   (120598, 120628), (120630, 120654), (120656, 120686), (120688, 120712), (120714, 120744),
   (120746, 120770), (120772, 120779), (122624, 122633), (122635, 122654), (125184, 125251),
   (127280, 127305), (127312, 127337), (127344, 127369)]

/-- The simple lower-case mapping of a code point outside Basic Latin, `none`
when the code point has none. -/
def simpleLowerCase (n : Nat) : Option Nat :=
  (lowerCaseRuns.find? fun r =>
    decide (r.1 ≤ n) && decide (n ≤ r.2.1) && decide ((n - r.1) % r.2.2.1 = 0)).map
    fun r => r.2.2.2 + (n - r.1)

/-- True when one of the ranges holds the code point. -/
def inRanges (ranges : List (Nat × Nat)) (n : Nat) : Bool :=
  ranges.any fun r => decide (r.1 ≤ n) && decide (n ≤ r.2)

/-- The Unicode property Case_Ignorable. -/
def isCaseIgnorable (c : Char) : Bool :=
  inRanges caseIgnorableRanges c.toNat

/-- The Unicode property Cased. -/
def isCased (c : Char) : Bool :=
  inRanges casedRanges c.toNat

/-- True when the characters, read from the first, are zero or more
case-ignorable characters and then a cased letter: the test that the condition
Final_Sigma makes on either side of a capital sigma. -/
def casedLetterNext (s : JSString) : Bool :=
  match s.dropWhile isCaseIgnorable with
  | c :: _ => isCased c
  | [] => false

/-- The lower case of the character `c` that stands between `before` (the
characters that precede it, the nearest first) and `after`.  A capital sigma
(U+03A3) becomes a final sigma when a cased letter precedes it and none follows
it, case-ignorable characters set aside, and a small sigma otherwise; `İ`
(U+0130) becomes `i` and a combining dot above. -/
def lowerAt (before : JSString) (c : Char) (after : JSString) : JSString :=
  if c.toNat < 128 then [lowerChar c]
  else if c.toNat = 0x3A3 then
    if casedLetterNext before && !casedLetterNext after then [Char.ofNat 0x3C2]
    else [Char.ofNat 0x3C3]
  else if c.toNat = 0x130 then ['i', Char.ofNat 0x307]
  else
    match simpleLowerCase c.toNat with
    | some m => [Char.ofNat m]
    | none => [c]

/-- The lower case of a string whose preceding characters are `before`, the
nearest first. -/
def toLowerCaseFrom (before : JSString) : JSString → JSString
  | [] => []
  | c :: rest => lowerAt before c rest ++ toLowerCaseFrom (c :: before) rest

/-- The method `String.prototype.toLowerCase`. -/
def toLowerCase (s : JSString) : JSString :=
  toLowerCaseFrom [] s

/-- True for the letters `A`..`Z`. -/
def isUpperLatin (c : Char) : Bool :=
  65 ≤ c.toNat && c.toNat ≤ 90

/-- True for a character that has a lower-case form of its own: one that
`toLowerCase` changes. -/
def hasLowerCaseForm (c : Char) : Bool :=
  toLowerCase [c] != [c]

/-- The uppercase letters of Unicode 14.0 (general category Lu), in runs
`(first, last, step)`. -/
def uppercaseLetterRuns : List (Nat × Nat × Nat) :=
  [(65, 90, 1), (192, 214, 1), (216, 222, 1), (256, 310, 2), (313, 327, 2), (330, 376, 2),
   (377, 381, 2), (385, 386, 1), (388, 390, 2), (391, 393, 2), (394, 395, 1), (398, 401, 1),
   (403, 404, 1), (406, 408, 1), (412, 413, 1), (415, 416, 1), (418, 422, 2), (423, 425, 2),
   (428, 430, 2), (431, 433, 2), (434, 435, 1), (437, 439, 2), (440, 440, 1), (444, 444, 1),
   (452, 452, 1), (455, 455, 1), (458, 458, 1), (461, 475, 2), (478, 494, 2), (497, 497, 1),
   (500, 502, 2), (503, 504, 1), (506, 562, 2), (570, 571, 1), (573, 574, 1), (577, 579, 2),
   (580, 582, 1), (584, 590, 2), (880, 882, 2), (886, 886, 1), (895, 895, 1), (902, 904, 2),
   (905, 906, 1), (908, 910, 2), (911, 913, 2), (914, 929, 1), (931, 939, 1), (975, 975, 1),
   (978, 980, 1), (984, 1006, 2), (1012, 1012, 1), (1015, 1017, 2), (1018, 1018, 1),
   (1021, 1071, 1), (1120, 1152, 2), (1162, 1216, 2), (1217, 1229, 2), (1232, 1326, 2),
   (1329, 1366, 1), (4256, 4293, 1), (4295, 4295, 1), (4301, 4301, 1), (5024, 5109, 1),
   (7312, 7354, 1), (7357, 7359, 1), (7680, 7828, 2), (7838, 7934, 2), (7944, 7951, 1),
   (7960, 7965, 1), (7976, 7983, 1), (7992, 7999, 1), (8008, 8013, 1), (8025, 8031, 2),
   (8040, 8047, 1), (8120, 8123, 1), (8136, 8139, 1), (8152, 8155, 1), (8168, 8172, 1),
   (8184, 8187, 1), (8450, 8450, 1), (8455, 8455, 1), (8459, 8461, 1), (8464, 8466, 1),
   (8469, 8469, 1), (8473, 8477, 1), (8484, 8490, 2), (8491, 8493, 1), (8496, 8499, 1),
   (8510, 8511, 1), (8517, 8517, 1), (8579, 8579, 1), (11264, 11311, 1), (11360, 11362, 2),
   (11363, 11364, 1), (11367, 11373, 2), (11374, 11376, 1), (11378, 11378, 1), (11381, 11381, 1),
   (11390, 11392, 1), (11394, 11490, 2), (11499, 11501, 2), (11506, 11506, 1), (42560, 42604, 2),
   (42624, 42650, 2), (42786, 42798, 2), (42802, 42862, 2), (42873, 42877, 2), (42878, 42886, 2),
   (42891, 42893, 2), (42896, 42898, 2), (42902, 42922, 2), (42923, 42926, 1), (42928, 42932, 1),
   (42934, 42948, 2), (42949, 42951, 1), (42953, 42953, 1), (42960, 42960, 1), (42966, 42968, 2),
   (42997, 42997, 1), (65313, 65338, 1), (66560, 66599, 1), (66736, 66771, 1), (66928, 66938, 1),
   (66940, 66954, 1), (66956, 66962, 1), (66964, 66965, 1), (68736, 68786, 1), (71840, 71871, 1),
   (93760, 93791, 1), (119808, 119833, 1), (119860, 119885, 1), (119912, 119937, 1),
   (119964, 119966, 2), (119967, 119967, 1), (119970, 119970, 1), (119973, 119974, 1),
   (119977, 119980, 1), (119982, 119989, 1), (120016, 120041, 1), (120068, 120069, 1),
   (120071, 120074, 1), (120077, 120084, 1), (120086, 120092, 1), (120120, 120121, 1),
   (120123, 120126, 1), (120128, 120132, 1), (120134, 120134, 1), (120138, 120144, 1),
   (120172, 120197, 1), (120224, 120249, 1), (120276, 120301, 1), (120328, 120353, 1),
   (120380, 120405, 1), (120432, 120457, 1), (120488, 120512, 1), (120546, 120570, 1),
   (120604, 120628, 1), (120662, 120686, 1), (120720, 120744, 1), (120778, 120778, 1),
   (125184, 125217, 1)]

/-- True for an uppercase letter, in the sense of the Unicode general category
Lu.  This is the reading of the words "uppercase letter"; the program has no
such test. -/
def isUppercaseLetter (c : Char) : Bool :=
  uppercaseLetterRuns.any fun r =>
    decide (r.1 ≤ c.toNat) && decide (c.toNat ≤ r.2.1) && decide ((c.toNat - r.1) % r.2.2 = 0)

/-- The code points that `toLowerCase` changes, in runs `(first, last, step)`:
those with a simple lower-case mapping, capital sigma, `İ` and `A`..`Z`; with
them the code points that are no characters (the surrogates). -/
def changedCodePoints : List (Nat × Nat × Nat) :=
  lowerCaseRuns.map (fun r => (r.1, r.2.1, r.2.2.1)) ++
    [(0x3A3, 0x3A3, 1), (0x130, 0x130, 1), (65, 90, 1), (0xD800, 0xDFFF, 1)]

/-- A sufficient test that no image of the run `r` of lower-case mappings is
among the code points `first`, `first + step`, ..., `last` of `d`: the images
lie below them, or above them, or they are of the other parity. -/
def imagesMiss (r : Nat × Nat × Nat × Nat) (d : Nat × Nat × Nat) : Bool :=
  decide (r.2.2.2 + (r.2.1 - r.1) < d.1) || decide (d.2.1 < r.2.2.2) ||
    (decide (d.2.2 = 2) && (decide (r.2.2.1 = 2) || decide (r.1 = r.2.1)) &&
      decide ((r.2.2.2 + d.1) % 2 = 1))

/-! ## Splitting and matching -/

/-- The call `s.split(/\s+/)`: the pieces of `s` between maximal runs of white
space.  A run at the very start or the very end of `s` leaves an empty piece
there, as in JavaScript (`" a".split(/\s+/)` is `["", "a"]`), and the empty
string gives `[""]`. -/
def splitWhiteSpace : JSString → List JSString
  | [] => [[]]
  | c :: cs =>
    if isWhiteSpace c then
      match cs with
      | d :: _ => if isWhiteSpace d then splitWhiteSpace cs else [] :: splitWhiteSpace cs
      | [] => [] :: splitWhiteSpace cs
    else
      match splitWhiteSpace cs with
      | t :: ts => (c :: t) :: ts
      | [] => [[c]]

/-- The two captures of `s.match(/^(\w+)\s+Q([^Q]+)Q$/)` for a quote character
`Q`, or `none` when `s` does not match.  The classes `\w`, `\s` and `Q` are
pairwise disjoint, so the word is the longest run of word characters at the
start, the separator the longest run of white space after it, and the quoted
text is what stands between the quote that follows and the final character,
which has to be the quote again. -/
def matchQuoted (quote : Char) (s : JSString) : Option (JSString × JSString) :=
  let word := s.takeWhile isWordChar
  let afterWord := s.dropWhile isWordChar
  let space := afterWord.takeWhile isWhiteSpace
  let afterSpace := afterWord.dropWhile isWhiteSpace
  if word = [] ∨ space = [] then none
  else
    match afterSpace with
    | [] => none
    | q :: rest =>
      if q ≠ quote then none
      else if rest.getLast? ≠ some quote then none
      else
        let text := rest.dropLast
        if text = [] ∨ quote ∈ text then none else some (word, text)

/-- The strings the regular expression `/^(\w+)\s+Q([^Q]+)Q$/` matches, stated
on the string itself: `s` is a word, then white space, then the quote `Q`, then
a text without `Q`, then `Q`, none of the three runs empty; `word` and `text`
are the two captures. -/
def IsQuotedForm (quote : Char) (s word text : JSString) : Prop :=
  ∃ space : JSString,
    s = word ++ space ++ [quote] ++ text ++ [quote] ∧
    word ≠ [] ∧ (∀ c ∈ word, isWordChar c = true) ∧
    space ≠ [] ∧ (∀ c ∈ space, isWhiteSpace c = true) ∧
    text ≠ [] ∧ quote ∉ text

/-- A line of one of the two quoted forms, `<word> "<text>"` or
`<word> '<text>'`. -/
def HasQuotedForm (s : JSString) : Prop :=
  ∃ word text : JSString, IsQuotedForm dquote s word text ∨ IsQuotedForm squote s word text

/-- The object `{ command, args }` that `parseInput` returns. -/
structure ParsedLine where
  command : JSString
  args : List JSString
  deriving DecidableEq, Repr

/-- The function `parseInput(input)`. -/
def parseInput (input : JSString) : ParsedLine :=
  let trimmed := trim input
  if trimmed = [] then ⟨[], []⟩
  else
    match (matchQuoted dquote trimmed).orElse (fun _ => matchQuoted squote trimmed) with
    | some (word, text) => ⟨toLowerCase word, [text]⟩
    | none =>
      let parts := splitWhiteSpace trimmed
      ⟨toLowerCase (parts.headD []), parts.tail⟩

/-- The conversion of an integer number to a string, as in a template literal:
all the digits, in base ten, after a minus sign for a negative number.  This is
how JavaScript prints an integer below `10^21` in absolute value; the program
prints array lengths and positions only. -/
def numberToString (n : Int) : JSString :=
  if n < 0 then '-' :: Nat.toDigits 10 n.natAbs else Nat.toDigits 10 n.natAbs

/-- The Number nearest to a natural number: the number itself below `2^53`,
and above, the nearest multiple of the power of two that leaves 53 significant
bits, a tie going to the even multiple.  (Below `2^1024`, where Numbers end.) -/
def nearestNumber (v : Nat) : Nat :=
  if v < 2 ^ 53 then v
  else
    let shift := (Nat.toDigits 2 v).length - 53
    let q := v / 2 ^ shift
    let r := v % 2 ^ shift
    let half := 2 ^ (shift - 1)
    let q := if r > half ∨ (r = half ∧ q % 2 = 1) then q + 1 else q
    q * 2 ^ shift

/-- The decimal with `k` significant digits that reads back as the Number `x`,
if there is one: the multiple of the right power of ten just below `x` or just
above it, the nearer one when both do (the one with the even last digit when
they are equally near). -/
def roundTripCandidate (x k : Nat) : Option Nat :=
  let j := (Nat.toDigits 10 x).length - k
  let lo := x / 10 ^ j * 10 ^ j
  let hi := lo + 10 ^ j
  let okLo : Bool := decide (nearestNumber lo = nearestNumber x)
  let okHi : Bool := decide (nearestNumber hi = nearestNumber x)
  if okLo && okHi then
    if x - lo < hi - x then some lo
    else if hi - x < x - lo then some hi
    else if (lo / 10 ^ j) % 2 = 0 then some lo else some hi
  else if okLo then some lo
  else if okHi then some hi
  else none

/-- The decimal with the fewest significant digits that reads back as the
Number `x`; seventeen digits always suffice. -/
def shortestRoundTrip (x : Nat) : Nat :=
  (((List.range 17).map (· + 1)).findSome? (roundTripCandidate x)).getD x

/-- The exponent form of a decimal: its first digit, the other digits up to
the last one that is not zero after a point, then `e+` and the exponent. -/
def exponentForm (v : Nat) : JSString :=
  let digits := Nat.toDigits 10 v
  let exponent := Nat.toDigits 10 (digits.length - 1)
  match digits.rdropWhile (· == '0') with
  | [] => digits
  | [d] => d :: 'e' :: '+' :: exponent
  | d :: rest => d :: '.' :: rest ++ 'e' :: '+' :: exponent

/-- The string JavaScript makes of a Number whose value is the integer `n`, as
`parseInt` does with an argument that is not a string.  Below `2^53` in
absolute value these are all the digits of `n`.  From `2^53` on they are the
digits of the shortest decimal that reads back as the same Number, written in
full below `10^21` (`18446744073709552000` for `2^64`) and in exponent form
from `10^21` on (`1e+21` for `10^21`). -/
def stringOfNumber (n : Int) : JSString :=
  if n.natAbs < 2 ^ 53 then numberToString n
  else
    let v := shortestRoundTrip n.natAbs
    let text := if v < 10 ^ 21 then Nat.toDigits 10 v else exponentForm v
    if n < 0 then '-' :: text else text

/-- True for the digits `0`..`9`. -/
def isDecimalDigit (c : Char) : Bool :=
  48 ≤ c.toNat && c.toNat ≤ 57

/-- The call `args.join(' ')`. -/
def joinWithSpace (args : List JSString) : JSString :=
  [' '].intercalate args

/-! ## `parseInt` -/

/-- The value of a character as a digit, letters counting from ten. -/
def digitValue (c : Char) : Option Nat :=
  let n := c.toNat
  if 48 ≤ n ∧ n ≤ 57 then some (n - 48)
  else if 97 ≤ n ∧ n ≤ 122 then some (n - 97 + 10)
  else if 65 ≤ n ∧ n ≤ 90 then some (n - 65 + 10)
  else none

/-- True when the character is a digit of the given radix. -/
def isRadixDigit (radix : Nat) (c : Char) : Bool :=
  match digitValue c with
  | some v => decide (v < radix)
  | none => false

/-- The number a run of digits denotes in the given radix. -/
def digitsValue (radix : Nat) (digits : JSString) : Nat :=
  digits.foldl (fun acc c => acc * radix + (digitValue c).getD 0) 0

/-- The function `parseInt(string)` with no radix argument: leading white
space is skipped, a sign is read, a `0x` or `0X` prefix selects radix sixteen
(ten otherwise), and the longest run of digits that follows is the number.
`none` stands for `NaN`, returned when there is no digit.  The number is kept
exact. -/
def parseInt (string : JSString) : Option Int :=
  let s := string.dropWhile isWhiteSpace
  let sign : Int := if s.head? = some '-' then -1 else 1
  let s := if s.head? = some '-' ∨ s.head? = some '+' then s.tail else s
  let hex : Bool := decide (s.take 2 = ['0', 'x'] ∨ s.take 2 = ['0', 'X'])
  let radix := if hex then 16 else 10
  let s := if hex then s.drop 2 else s
  let z := s.takeWhile (isRadixDigit radix)
  if z = [] then none else some (sign * (digitsValue radix z : Int))

/-! ## Tasks, storage, console -/

namespace STATUS

/-- The constant `STATUS.PENDING`. -/
def PENDING : JSString := "pending".toList

/-- The constant `STATUS.COMPLETED`. -/
def COMPLETED : JSString := "completed".toList

end STATUS

namespace COMMANDS

/-- The constant `COMMANDS.ADD`. -/
def ADD : JSString := "add".toList

/-- The constant `COMMANDS.LIST`. -/
def LIST : JSString := "list".toList

/-- The constant `COMMANDS.COMPLETE`. -/
def COMPLETE : JSString := "complete".toList

/-- The constant `COMMANDS.REMOVE`. -/
def REMOVE : JSString := "remove".toList

end COMMANDS

/-- A task object of the stored array.  `completedAt` is `none` when the
object has no such property. -/
structure Task where
  id : Int
  description : JSString
  status : JSString
  createdAt : JSString
  completedAt : Option JSString
  deriving DecidableEq, Repr

/-- The values of `JSON.parse(data)` that are covered: an array of task
objects, which is what the program writes, and the literal `null`, the
simplest value that is not an array. -/
inductive JsonValue where
  | array (tasks : List Task)
  | null
  deriving DecidableEq, Repr

/-- The state of the storage file `tasks.json`. -/
inductive Storage where
  /-- `fs.existsSync` is false. -/
  | missing
  /-- `fs.readFileSync` throws an error with this message. -/
  | unreadable (message : JSString)
  /-- `JSON.parse` throws an error with this message. -/
  | unparsable (message : JSString)
  /-- The file parses to this value. -/
  | holds (value : JsonValue)
  deriving DecidableEq, Repr

/-- What an operation takes from its environment: the clock and whether the
file can be written. -/
structure Env where
  /-- The value of `Date.now()`. -/
  dateNow : Int
  /-- The value of `new Date().toISOString()`. -/
  isoNow : JSString
  /-- The message of the error `fs.writeFileSync` throws, `none` when the
  write succeeds. -/
  writeError : Option JSString
  deriving DecidableEq, Repr

/-- One event on the console. -/
inductive Output where
  | log (line : JSString)
  | error (line : JSString)
  | prompt
  deriving DecidableEq, Repr

/-- How a call ends: it returns a value, or an exception leaves it. -/
inductive Completion (α : Type) where
  | returned (value : α)
  | threw
  deriving DecidableEq, Repr

/-- A call that has run: how it ended, the storage afterwards and what it
printed. -/
structure Run (α : Type) where
  result : Completion α
  storage : Storage
  out : List Output
  deriving DecidableEq, Repr

/-- A value `processCommand` returns: a boolean or a string. -/
inductive JSValue where
  | boolean (b : Bool)
  | string (s : JSString)
  deriving DecidableEq, Repr

/-- The value `'EXIT'`. -/
def EXIT : JSValue := .string "EXIT".toList

/-! ## The functions of `todo.js` -/

/-- The function `createTask(description)`. -/
def createTask (env : Env) (description : JSString) : Task :=
  { id := env.dateNow
    description := trim description
    status := STATUS.PENDING
    createdAt := env.isoNow
    completedAt := none }

/-- The function `readTasksFromFile()`: the value read and what was printed. -/
def readTasksFromFile (storage : Storage) : JsonValue × List Output :=
  match storage with
  | .missing => (.array [], [])
  | .unreadable message => (.array [], [.error ("Error reading tasks file: ".toList ++ message)])
  | .unparsable message => (.array [], [.error ("Error reading tasks file: ".toList ++ message)])
  | .holds value => (value, [])

/-- The function `writeTasksToFile(tasks)`: its result, the storage afterwards
and what was printed.  A write that fails leaves the file as it was. -/
def writeTasksToFile (env : Env) (tasks : List Task) (storage : Storage) :
    Bool × Storage × List Output :=
  match env.writeError with
  | none => (true, .holds (.array tasks), [])
  | some message => (false, storage, [.error ("Error writing tasks file: ".toList ++ message)])

/-- The function `isValidTaskDescription(description)`, as the condition it is
used for. -/
def isValidTaskDescription (description : JSString) : Bool :=
  !description.isEmpty && decide ((trim description).length > 0)

/-- The function `validateTaskNumber(taskNumber, totalTasks)`: the index (or
`-1`) and what was printed. -/
def validateTaskNumber (taskNumber : JSString) (totalTasks : Nat) : Int × List Output :=
  let invalid : Int × List Output :=
    (-1, [.error ("Error: Invalid task number. Please use a number between 1 and ".toList ++
      numberToString totalTasks)])
  match parseInt taskNumber with
  | none => invalid
  | some number =>
    if number < 1 ∨ number > totalTasks then invalid
    else (number - 1, [])

/-- The element `tasks[index]`, `none` standing for `undefined`. -/
def elementAt (tasks : List Task) (index : Int) : Option Task :=
  if index < 0 then none else tasks[index.toNat]?

/-- The array after `tasks.splice(start, 1)`. -/
def spliceOne (tasks : List Task) (start : Int) : List Task :=
  let first : Int := if start < 0 then max (tasks.length + start) 0 else min start tasks.length
  tasks.eraseIdx first.toNat

/-- The function `addTask(description)`. -/
def addTask (env : Env) (description : JSString) (storage : Storage) : Run Bool :=
  if !isValidTaskDescription description then
    ⟨.returned false, storage, [.error "Error: Task description cannot be empty".toList]⟩
  else
    let read := readTasksFromFile storage
    match read.1 with
    | .null => ⟨.threw, storage, read.2⟩
    | .array tasks =>
      let newTask := createTask env description
      let tasks := tasks ++ [newTask]
      let written := writeTasksToFile env tasks storage
      if written.1 then
        ⟨.returned true, written.2.1,
          read.2 ++ written.2.2 ++ [.log ("✅ Task added: \"".toList ++ description ++ "\"".toList)]⟩
      else
        ⟨.returned false, written.2.1, read.2 ++ written.2.2⟩

/-- The line `listTasks` prints for the task at a zero-based index. -/
def taskLine (index : Nat) (task : Task) : JSString :=
  let statusIcon := if task.status = STATUS.COMPLETED then "✅".toList else "⏳".toList
  let taskNumber := index + 1
  numberToString taskNumber ++ ". ".toList ++ statusIcon ++ " ".toList ++ task.description

/-- The separator line `'─'.repeat(50)`. -/
def ruler : JSString := List.replicate 50 '─'

/-- The function `listTasks()`. -/
def listTasks (storage : Storage) : Run Unit :=
  let read := readTasksFromFile storage
  match read.1 with
  | .null => ⟨.threw, storage, read.2⟩
  | .array tasks =>
    if tasks.length = 0 then
      ⟨.returned (), storage, read.2 ++
        [.log "📝 No tasks found. Add your first task with: node todo.js add \"Your task\"".toList]⟩
    else
      ⟨.returned (), storage, read.2 ++
        [.log "\n📋 Your Tasks:".toList, .log ruler] ++
        (tasks.enum.map fun p => Output.log (taskLine p.1 p.2)) ++
        [.log ruler, .log ("Total: ".toList ++ numberToString tasks.length ++ " tasks".toList)]⟩

/-- The function `completeTask(taskNumber)`. -/
def completeTask (env : Env) (taskNumber : JSString) (storage : Storage) : Run Bool :=
  let read := readTasksFromFile storage
  match read.1 with
  | .null => ⟨.threw, storage, read.2⟩
  | .array tasks =>
    let validated := validateTaskNumber taskNumber tasks.length
    let taskIndex := validated.1
    let out := read.2 ++ validated.2
    if taskIndex = -1 then ⟨.returned false, storage, out⟩
    else
      match elementAt tasks taskIndex with
      | none => ⟨.threw, storage, out⟩
      | some task =>
        if task.status = STATUS.COMPLETED then
          ⟨.returned false, storage, out ++ [.log "⚠️  Task is already completed".toList]⟩
        else
          let tasks := tasks.set taskIndex.toNat
            { task with status := STATUS.COMPLETED, completedAt := some env.isoNow }
          let written := writeTasksToFile env tasks storage
          if written.1 then
            ⟨.returned true, written.2.1, out ++ written.2.2 ++
              [.log ("✅ Task ".toList ++ taskNumber ++ " marked as completed".toList)]⟩
          else
            ⟨.returned false, written.2.1, out ++ written.2.2⟩

/-- The function `removeTask(taskNumber)`. -/
def removeTask (env : Env) (taskNumber : JSString) (storage : Storage) : Run Bool :=
  let read := readTasksFromFile storage
  match read.1 with
  | .null => ⟨.threw, storage, read.2⟩
  | .array tasks =>
    let validated := validateTaskNumber taskNumber tasks.length
    let taskIndex := validated.1
    let out := read.2 ++ validated.2
    if taskIndex = -1 then ⟨.returned false, storage, out⟩
    else
      let removedTask := elementAt tasks taskIndex
      let tasks := spliceOne tasks taskIndex
      let written := writeTasksToFile env tasks storage
      if written.1 then
        match removedTask with
        | none => ⟨.threw, written.2.1, out ++ written.2.2⟩
        | some removed =>
          ⟨.returned true, written.2.1, out ++ written.2.2 ++
            [.log ("🗑️  Task ".toList ++ taskNumber ++ " removed: \"".toList ++
              removed.description ++ "\"".toList)]⟩
      else
        ⟨.returned false, written.2.1, out ++ written.2.2⟩

/-- The lines `showUsage()` prints. -/
def showUsage : List Output :=
  [ .log "\n📚 Available Commands:".toList,
    .log "  add \"Task description\"       - Add a new task".toList,
    .log "  list                         - List all tasks".toList,
    .log "  complete <task-number>       - Mark task as completed".toList,
    .log "  remove <task-number>         - Remove a task".toList,
    .log "  help                         - Show this help message".toList,
    .log "  exit, quit, q                - Exit the application".toList,
    .log "\n💡 Examples:".toList,
    .log "  add \"Buy groceries\"".toList,
    .log "  complete 1".toList,
    .log "  remove 2".toList ]

/-- A run whose boolean result is seen as a JavaScript value. -/
def asValue (r : Run Bool) : Run JSValue :=
  match r.result with
  | .returned b => ⟨.returned (.boolean b), r.storage, r.out⟩
  | .threw => ⟨.threw, r.storage, r.out⟩

/-- The function `processCommand(command, args)`. -/
def processCommand (env : Env) (command : JSString) (args : List JSString)
    (storage : Storage) : Run JSValue :=
  if command = COMMANDS.ADD then
    if args.length = 0 then
      ⟨.returned (.boolean false), storage,
        [.error "Error: Please provide a task description".toList]⟩
    else asValue (addTask env (joinWithSpace args) storage)
  else if command = COMMANDS.LIST then
    let listed := listTasks storage
    match listed.result with
    | .returned _ => ⟨.returned (.boolean true), listed.storage, listed.out⟩
    | .threw => ⟨.threw, listed.storage, listed.out⟩
  else if command = COMMANDS.COMPLETE then
    match args with
    | [] => ⟨.returned (.boolean false), storage,
        [.error "Error: Please provide a task number".toList]⟩
    | first :: _ => asValue (completeTask env first storage)
  else if command = COMMANDS.REMOVE then
    match args with
    | [] => ⟨.returned (.boolean false), storage,
        [.error "Error: Please provide a task number".toList]⟩
    | first :: _ => asValue (removeTask env first storage)
  else if command = "help".toList then
    ⟨.returned (.boolean true), storage, showUsage⟩
  else if command = "exit".toList ∨ command = "quit".toList ∨ command = "q".toList then
    ⟨.returned EXIT, storage, []⟩
  else
    ⟨.returned (.boolean false), storage,
      [.error ("Error: Unknown command \"".toList ++ command ++ "\"".toList)] ++ showUsage⟩

/-- What becomes of the completed tasks between two collections: every task of
`before` with status COMPLETED is the one task removed, or is found unchanged
at its position in `after`, or is found unchanged one position lower because an
earlier task was removed. -/
def CompletedKept (before after : List Task) : Prop :=
  ∀ (i : Nat) (task : Task), before[i]? = some task → task.status = STATUS.COMPLETED →
    after = before.eraseIdx i ∨ after[i]? = some task ∨
      ∃ k, k < i ∧ after = before.eraseIdx k ∧ after[i - 1]? = some task

/-- The storage after the commands of a list have been dispatched one after the
other, each with its own environment. -/
def dispatchAll : List (Env × JSString × List JSString) → Storage → Storage
  | [], storage => storage
  | (env, command, args) :: rest, storage =>
    dispatchAll rest (processCommand env command args storage).storage

/-- The two steps the `line` handler takes on a line that is not blank: the
line is parsed and the command dispatched with its arguments. -/
def dispatchLine (env : Env) (input : JSString) (storage : Storage) : Run JSValue :=
  processCommand env (parseInput input).command (parseInput input).args storage

/-- The two states of the interactive loop. -/
inductive LoopState where
  | RUNNING
  | TERMINATED
  deriving DecidableEq, Repr

/-- The handler of the `line` event in `startInteractiveMode`: one turn of the
interactive loop on the line `input`. -/
def onLine (env : Env) (input : JSString) (storage : Storage) : Run LoopState :=
  let parsed := parseInput input
  if parsed.command = [] then
    ⟨.returned .RUNNING, storage, [.prompt]⟩
  else
    let ran := processCommand env parsed.command parsed.args storage
    match ran.result with
    | .threw => ⟨.threw, ran.storage, ran.out⟩
    | .returned result =>
      if result = EXIT then
        ⟨.returned .TERMINATED, ran.storage, ran.out ++
          [.log "👋 Goodbye! Thanks for using Clean Todo CLI!".toList,
           .log "\n👋 Goodbye! Thanks for using Clean Todo CLI!".toList]⟩
      else
        ⟨.returned .RUNNING, ran.storage, ran.out ++ [.log [], .prompt]⟩

/-! ## Lemmas on strings -/

theorem trim_eq_nil_iff (s : JSString) :
    trim s = [] ↔ ∀ c ∈ s, isWhiteSpace c = true := by
  unfold trim
  rw [List.rdropWhile_eq_nil_iff]
  constructor
  · intro h c hc
    by_contra hn
    have hne : s.dropWhile isWhiteSpace ≠ [] := by
      intro h0
      rw [List.dropWhile_eq_nil_iff] at h0
      exact hn (h0 c hc)
    have hhead := List.head_dropWhile_not isWhiteSpace s hne
    have hmem : (s.dropWhile isWhiteSpace).head hne ∈ s.dropWhile isWhiteSpace :=
      List.head_mem hne
    rw [h _ hmem] at hhead
    exact absurd hhead (by simp)
  · intro h c hc
    exact h c ((List.dropWhile_sublist _).subset hc)

/-! ## Validation -/

theorem isValidTaskDescription_eq_false_iff (description : JSString) :
    isValidTaskDescription description = false ↔ ∀ c ∈ description, isWhiteSpace c = true := by
  rw [← trim_eq_nil_iff]
  unfold isValidTaskDescription
  cases description with
  | nil => simp [trim, List.rdropWhile]
  | cons c cs =>
    simp only [List.isEmpty_cons, Bool.not_false, Bool.true_and, decide_eq_false_iff_not,
      gt_iff_lt, not_lt, Nat.le_zero, List.length_eq_zero]

/-- C2: for every state of the storage and every description that is empty or
made of white space only, `addTask` returns `false`, prints the one error line
and leaves the storage as it was; nothing of a read or of a write is printed,
whatever the state of the file. -/
theorem addTask_blank_rejected (env : Env) (storage : Storage) (description : JSString)
    (hblank : ∀ c ∈ description, isWhiteSpace c = true) :
    addTask env description storage =
      ⟨.returned false, storage, [.error "Error: Task description cannot be empty".toList]⟩ := by
  have h := (isValidTaskDescription_eq_false_iff description).2 hblank
  simp [addTask, h]

/-- C2, at the descriptions `""` and `"   "`, on a file that cannot be read. -/
theorem addTask_blank_rejected_witness :
    addTask ⟨0, [], none⟩ [] (.unreadable "EACCES".toList) =
        ⟨.returned false, .unreadable "EACCES".toList,
          [.error "Error: Task description cannot be empty".toList]⟩ ∧
      addTask ⟨0, [], none⟩ "   ".toList (.unreadable "EACCES".toList) =
        ⟨.returned false, .unreadable "EACCES".toList,
          [.error "Error: Task description cannot be empty".toList]⟩ :=
  ⟨addTask_blank_rejected _ _ [] (by decide), addTask_blank_rejected _ _ "   ".toList (by decide)⟩

/-- C7: `validateTaskNumber` returns `-1` exactly when the parsed number is
`NaN`, below 1 or above `totalTasks`; otherwise it returns the parsed number
minus one, which lies in `[0, totalTasks)`, so it is never `-1` and the element
of an array of `totalTasks` tasks at that index exists. -/
theorem validateTaskNumber_spec (taskNumber : JSString) (totalTasks : Nat) :
    ((validateTaskNumber taskNumber totalTasks).1 = -1 ↔
      (parseInt taskNumber = none ∨
        ∃ number : Int, parseInt taskNumber = some number ∧
          (number < 1 ∨ number > totalTasks))) ∧
    (∀ number : Int, parseInt taskNumber = some number → 1 ≤ number → number ≤ totalTasks →
      (validateTaskNumber taskNumber totalTasks).1 = number - 1 ∧
      (validateTaskNumber taskNumber totalTasks).2 = []) ∧
    ((validateTaskNumber taskNumber totalTasks).1 ≠ -1 →
      0 ≤ (validateTaskNumber taskNumber totalTasks).1 ∧
      (validateTaskNumber taskNumber totalTasks).1 < totalTasks ∧
      ∀ tasks : List Task, tasks.length = totalTasks →
        (elementAt tasks (validateTaskNumber taskNumber totalTasks).1).isSome = true) := by
  unfold validateTaskNumber
  cases hp : parseInt taskNumber with
  | none => simp
  | some number =>
    by_cases hr : number < 1 ∨ number > (totalTasks : Int)
    · simp [hr]
      intro h1
      omega
    · have h1 : 1 ≤ number := by omega
      have h2 : number ≤ totalTasks := by omega
      simp only [hr, if_false]
      refine ⟨?_, ?_, ?_⟩
      · constructor
        · intro h; omega
        · rintro (h | ⟨m, hm, hlt⟩)
          · cases h
          · cases hm; omega
      · intro m hm _ _
        cases hm
        simp
      · intro _
        refine ⟨by omega, by omega, ?_⟩
        intro tasks hlen
        unfold elementAt
        have hnn : ¬ (number - 1 < 0) := by omega
        simp only [hnn, if_false]
        rw [List.getElem?_eq_getElem (by omega)]
        rfl

/-! ## Decimal numerals -/

theorem digitChar_decimal (d : Nat) (hd : d < 10) :
    isDecimalDigit (Nat.digitChar d) = true ∧ digitValue (Nat.digitChar d) = some d := by
  interval_cases d <;> decide

theorem isDecimalDigit_range {c : Char} (h : isDecimalDigit c = true) :
    48 ≤ c.toNat ∧ c.toNat ≤ 57 := by
  simpa [isDecimalDigit] using h

theorem isWhiteSpace_of_decimal {c : Char} (h : isDecimalDigit c = true) :
    isWhiteSpace c = false := by
  have hr := isDecimalDigit_range h
  simp [isWhiteSpace]
  omega

theorem isRadixDigit_of_decimal {c : Char} (h : isDecimalDigit c = true) :
    isRadixDigit 10 c = true := by
  have hr := isDecimalDigit_range h
  simp only [isRadixDigit, digitValue, hr, and_self, if_true, decide_eq_true_eq]
  omega

theorem toDigitsCore_spec (fuel : Nat) :
    ∀ (n : Nat) (ds : List Char), n < fuel →
      ∃ pre : List Char, Nat.toDigitsCore 10 fuel n ds = pre ++ ds ∧ pre ≠ [] ∧
        (∀ c ∈ pre, isDecimalDigit c = true) ∧ digitsValue 10 pre = n := by
  induction fuel with
  | zero => intro n ds h; omega
  | succ fuel ih =>
    intro n ds hn
    have hd := digitChar_decimal (n % 10) (Nat.mod_lt _ (by decide))
    unfold Nat.toDigitsCore
    by_cases h0 : n / 10 = 0
    · simp only [h0, if_true]
      refine ⟨[Nat.digitChar (n % 10)], rfl, by simp, ?_, ?_⟩
      · intro c hc
        rw [List.mem_singleton] at hc
        rw [hc]; exact hd.1
      · simp only [digitsValue, List.foldl_cons, List.foldl_nil, hd.2, Option.getD_some]
        omega
    · simp only [h0, if_false]
      obtain ⟨pre, hpre, _, hall, hval⟩ := ih (n / 10) (Nat.digitChar (n % 10) :: ds) (by omega)
      refine ⟨pre ++ [Nat.digitChar (n % 10)], ?_, by simp, ?_, ?_⟩
      · rw [hpre]; simp
      · intro c hc
        rcases List.mem_append.1 hc with h | h
        · exact hall c h
        · rw [List.mem_singleton] at h
          rw [h]; exact hd.1
      · unfold digitsValue at hval ⊢
        rw [List.foldl_append, hval]
        simp only [List.foldl_cons, List.foldl_nil, hd.2, Option.getD_some]
        omega

theorem toDigits_spec (n : Nat) :
    Nat.toDigits 10 n ≠ [] ∧ (∀ c ∈ Nat.toDigits 10 n, isDecimalDigit c = true) ∧
      digitsValue 10 (Nat.toDigits 10 n) = n := by
  obtain ⟨pre, hpre, hne, hall, hval⟩ := toDigitsCore_spec (n + 1) n [] (by omega)
  have : Nat.toDigits 10 n = pre := by
    unfold Nat.toDigits
    rw [hpre, List.append_nil]
  rw [this]
  exact ⟨hne, hall, hval⟩

theorem parseInt_decimal (z : JSString) (hne : z ≠ [])
    (hall : ∀ c ∈ z, isDecimalDigit c = true) :
    parseInt z = some (digitsValue 10 z : Int) ∧
      parseInt ('-' :: z) = some (-(digitsValue 10 z : Int)) := by
  obtain ⟨c, cs, rfl⟩ := List.exists_cons_of_ne_nil hne
  have hc := hall c (List.mem_cons_self _ _)
  have hcr := isDecimalDigit_range hc
  have hws := isWhiteSpace_of_decimal hc
  have hminus : c ≠ '-' := by rintro rfl; simp at hcr
  have hplus : c ≠ '+' := by rintro rfl; simp at hcr
  have hx : ¬ ((c :: cs).take 2 = ['0', 'x'] ∨ (c :: cs).take 2 = ['0', 'X']) := by
    cases cs with
    | nil => simp
    | cons d ds =>
      have hd := isDecimalDigit_range (hall d (by simp))
      simp only [List.take_succ_cons, List.take_zero, List.cons.injEq, and_true, not_or, not_and]
      constructor <;> (intro _; rintro rfl; simp at hd)
  have htake : (c :: cs).takeWhile (isRadixDigit 10) = c :: cs := by
    rw [List.takeWhile_eq_self_iff]
    intro d hd
    exact isRadixDigit_of_decimal (hall d hd)
  constructor
  · unfold parseInt
    simp only [List.dropWhile_cons, hws, Bool.false_eq_true, if_false, List.head?_cons,
      Option.some.injEq, hminus, hplus, or_self, hx, decide_False, htake]
    simp
  · unfold parseInt
    have hm : isWhiteSpace '-' = false := by decide
    simp only [List.dropWhile_cons, hm, Bool.false_eq_true, if_false, List.head?_cons,
      true_or, if_true, List.tail_cons, hx, decide_False, htake]
    simp

/-- The decimal numeral of an integer parses back to that integer. -/
theorem parseInt_numberToString (n : Int) : parseInt (numberToString n) = some n := by
  obtain ⟨hne, hall, hval⟩ := toDigits_spec n.natAbs
  have h := parseInt_decimal _ hne hall
  rw [hval] at h
  unfold numberToString
  by_cases hn : n < 0
  · simp only [hn, if_true]
    rw [h.2]; congr 1; omega
  · simp only [hn, if_false]
    rw [h.1]; congr 1; omega


/-! ## The task operations -/

theorem trim_eq_self (s : JSString) (hne : s ≠ [])
    (hfirst : isWhiteSpace (s.head hne) = false)
    (hlast : isWhiteSpace (s.getLast hne) = false) : trim s = s := by
  unfold trim
  have h1 : s.dropWhile isWhiteSpace = s := by
    obtain ⟨c, cs, rfl⟩ := List.exists_cons_of_ne_nil hne
    simp only [List.head_cons] at hfirst
    simp [List.dropWhile_cons, hfirst]
  rw [h1, List.rdropWhile_eq_self_iff]
  intro h
  simp [hlast]

theorem taskLine_pending (index : Nat) (task : Task) (h : task.status = STATUS.PENDING) :
    taskLine index task =
      numberToString (index + 1 : Nat) ++ ". ⏳ ".toList ++ task.description := by
  have hne : STATUS.PENDING ≠ STATUS.COMPLETED := by decide
  unfold taskLine
  rw [h]
  simp [hne]

/-- C1: when the stored collection is `tasks`, the description is not empty
after trimming and the write succeeds, `addTask` returns `true` and the file
holds `tasks` followed by one new task: status PENDING, the trimmed description
(the description itself when it has no white space at either end), no
`completedAt`.  `listTasks` then prints the old lines followed by the line of
the new task, numbered `tasks.length + 1` and carrying the pending glyph. -/
theorem addTask_appends_pending (env : Env) (storage : Storage) (tasks : List Task)
    (description : JSString)
    (hread : (readTasksFromFile storage).1 = .array tasks)
    (hvalid : trim description ≠ [])
    (hwrite : env.writeError = none) :
    (addTask env description storage).result = .returned true ∧
    (addTask env description storage).storage =
      .holds (.array (tasks ++
        [⟨env.dateNow, trim description, STATUS.PENDING, env.isoNow, none⟩])) ∧
    (∀ hne : description ≠ [], isWhiteSpace (description.head hne) = false →
      isWhiteSpace (description.getLast hne) = false → trim description = description) ∧
    listTasks (addTask env description storage).storage =
      ⟨.returned (), (addTask env description storage).storage,
        [.log "\n📋 Your Tasks:".toList, .log ruler] ++
        (tasks.enum.map fun p => Output.log (taskLine p.1 p.2)) ++
        [.log (numberToString (tasks.length + 1 : Nat) ++ ". ⏳ ".toList ++ trim description)] ++
        [.log ruler,
         .log ("Total: ".toList ++ numberToString (tasks.length + 1 : Nat) ++ " tasks".toList)]⟩ := by
  have hv : isValidTaskDescription description = true := by
    cases hb : isValidTaskDescription description with
    | true => rfl
    | false =>
      exact absurd ((trim_eq_nil_iff _).2 ((isValidTaskDescription_eq_false_iff _).1 hb)) hvalid
  have hst : addTask env description storage =
      ⟨.returned true, .holds (.array (tasks ++
        [⟨env.dateNow, trim description, STATUS.PENDING, env.isoNow, none⟩])),
        (readTasksFromFile storage).2 ++
          [.log ("✅ Task added: \"".toList ++ description ++ "\"".toList)]⟩ := by
    simp [addTask, hv, hread, writeTasksToFile, hwrite, createTask]
  rw [hst]
  refine ⟨rfl, rfl, fun hne h1 h2 => trim_eq_self _ hne h1 h2, ?_⟩
  simp only [listTasks, readTasksFromFile, List.length_append, List.length_singleton,
    Nat.add_one_ne_zero, if_false, List.nil_append, List.enum_append, List.map_append]
  have hl := taskLine_pending tasks.length
    ⟨env.dateNow, trim description, STATUS.PENDING, env.isoNow, none⟩ rfl
  simp [List.enumFrom, hl]

/-- C1, on the collection of one task and the description `" Walk dog "`. -/
theorem addTask_appends_pending_witness :
    (addTask ⟨1700000000000, "2023-11-14T22:13:20.000Z".toList, none⟩ " Walk dog ".toList
        (.holds (.array [⟨1, "Buy milk".toList, STATUS.COMPLETED, "t0".toList,
          some "t1".toList⟩]))).storage =
      .holds (.array ([⟨1, "Buy milk".toList, STATUS.COMPLETED, "t0".toList,
          some "t1".toList⟩] ++
        [⟨1700000000000, trim " Walk dog ".toList, STATUS.PENDING,
          "2023-11-14T22:13:20.000Z".toList, none⟩])) :=
  (addTask_appends_pending ⟨1700000000000, "2023-11-14T22:13:20.000Z".toList, none⟩
    (.holds (.array [⟨1, "Buy milk".toList, STATUS.COMPLETED, "t0".toList, some "t1".toList⟩]))
    [⟨1, "Buy milk".toList, STATUS.COMPLETED, "t0".toList, some "t1".toList⟩]
    " Walk dog ".toList rfl (by decide) rfl).2.1


theorem validateTaskNumber_invalid (taskNumber : JSString) (totalTasks : Nat) (n : Int)
    (hparse : parseInt taskNumber = some n) (hout : n < 1 ∨ n > totalTasks) :
    validateTaskNumber taskNumber totalTasks =
      (-1, [.error ("Error: Invalid task number. Please use a number between 1 and ".toList ++
        numberToString totalTasks)]) := by
  simp [validateTaskNumber, hparse, hout]

theorem validateTaskNumber_nan (taskNumber : JSString) (totalTasks : Nat)
    (hparse : parseInt taskNumber = none) :
    validateTaskNumber taskNumber totalTasks =
      (-1, [.error ("Error: Invalid task number. Please use a number between 1 and ".toList ++
        numberToString totalTasks)]) := by
  simp [validateTaskNumber, hparse]

theorem validateTaskNumber_valid (taskNumber : JSString) (totalTasks : Nat) (n : Int)
    (hparse : parseInt taskNumber = some n) (h1 : 1 ≤ n) (h2 : n ≤ totalTasks) :
    validateTaskNumber taskNumber totalTasks = (n - 1, []) := by
  have h : ¬ (n < 1 ∨ n > totalTasks) := by omega
  simp [validateTaskNumber, hparse, h]

theorem elementAt_of_getElem? (tasks : List Task) (n : Int) (task : Task) (h1 : 1 ≤ n)
    (h : tasks[(n - 1).toNat]? = some task) : elementAt tasks (n - 1) = some task := by
  have hnn : ¬ (n - 1 < 0) := by omega
  unfold elementAt
  rw [if_neg hnn]
  exact h

theorem completeTask_invalid (env : Env) (storage : Storage) (tasks : List Task)
    (taskNumber : JSString) (n : Int)
    (hread : (readTasksFromFile storage).1 = .array tasks)
    (hparse : parseInt taskNumber = some n) (hout : n < 1 ∨ n > tasks.length) :
    completeTask env taskNumber storage =
      ⟨.returned false, storage, (readTasksFromFile storage).2 ++
        [.error ("Error: Invalid task number. Please use a number between 1 and ".toList ++
          numberToString tasks.length)]⟩ := by
  simp [completeTask, hread, validateTaskNumber_invalid taskNumber tasks.length n hparse hout]

theorem removeTask_invalid (env : Env) (storage : Storage) (tasks : List Task)
    (taskNumber : JSString) (n : Int)
    (hread : (readTasksFromFile storage).1 = .array tasks)
    (hparse : parseInt taskNumber = some n) (hout : n < 1 ∨ n > tasks.length) :
    removeTask env taskNumber storage =
      ⟨.returned false, storage, (readTasksFromFile storage).2 ++
        [.error ("Error: Invalid task number. Please use a number between 1 and ".toList ++
          numberToString tasks.length)]⟩ := by
  simp [removeTask, hread, validateTaskNumber_invalid taskNumber tasks.length n hparse hout]

theorem completeTask_already (env : Env) (storage : Storage) (tasks : List Task)
    (taskNumber : JSString) (n : Int) (task : Task)
    (hread : (readTasksFromFile storage).1 = .array tasks)
    (hparse : parseInt taskNumber = some n) (h1 : 1 ≤ n) (h2 : n ≤ tasks.length)
    (htask : tasks[(n - 1).toNat]? = some task) (hdone : task.status = STATUS.COMPLETED) :
    completeTask env taskNumber storage =
      ⟨.returned false, storage, (readTasksFromFile storage).2 ++
        [.log "⚠️  Task is already completed".toList]⟩ := by
  have hne : n - 1 ≠ -1 := by omega
  simp [completeTask, hread, validateTaskNumber_valid taskNumber tasks.length n hparse h1 h2,
    elementAt_of_getElem? tasks n task h1 htask, hdone, hne]

theorem completeTask_pending (env : Env) (storage : Storage) (tasks : List Task)
    (taskNumber : JSString) (n : Int) (task : Task)
    (hread : (readTasksFromFile storage).1 = .array tasks)
    (hparse : parseInt taskNumber = some n) (h1 : 1 ≤ n) (h2 : n ≤ tasks.length)
    (htask : tasks[(n - 1).toNat]? = some task) (hnot : task.status ≠ STATUS.COMPLETED)
    (hwrite : env.writeError = none) :
    completeTask env taskNumber storage =
      ⟨.returned true,
        .holds (.array (tasks.set (n - 1).toNat
          ⟨task.id, task.description, STATUS.COMPLETED, task.createdAt, some env.isoNow⟩)),
        (readTasksFromFile storage).2 ++
          [.log ("✅ Task ".toList ++ taskNumber ++ " marked as completed".toList)]⟩ := by
  have hne : n - 1 ≠ -1 := by omega
  simp [completeTask, hread, validateTaskNumber_valid taskNumber tasks.length n hparse h1 h2,
    elementAt_of_getElem? tasks n task h1 htask, hnot, hne, writeTasksToFile, hwrite]

theorem spliceOne_valid (tasks : List Task) (n : Int) (h1 : 1 ≤ n) (h2 : n ≤ tasks.length) :
    spliceOne tasks (n - 1) = tasks.eraseIdx (n - 1).toNat := by
  have hnn : ¬ (n - 1 < 0) := by omega
  have hmin : min (n - 1) (tasks.length : Int) = n - 1 := by omega
  simp [spliceOne, hnn, hmin]

theorem removeTask_valid (env : Env) (storage : Storage) (tasks : List Task)
    (taskNumber : JSString) (n : Int) (task : Task)
    (hread : (readTasksFromFile storage).1 = .array tasks)
    (hparse : parseInt taskNumber = some n) (h1 : 1 ≤ n) (h2 : n ≤ tasks.length)
    (htask : tasks[(n - 1).toNat]? = some task)
    (hwrite : env.writeError = none) :
    removeTask env taskNumber storage =
      ⟨.returned true, .holds (.array (tasks.eraseIdx (n - 1).toNat)),
        (readTasksFromFile storage).2 ++
          [.log ("🗑️  Task ".toList ++ taskNumber ++ " removed: \"".toList ++
            task.description ++ "\"".toList)]⟩ := by
  have hne : n - 1 ≠ -1 := by omega
  simp [removeTask, hread, validateTaskNumber_valid taskNumber tasks.length n hparse h1 h2,
    elementAt_of_getElem? tasks n task h1 htask, hne, writeTasksToFile, hwrite,
    spliceOne_valid tasks n h1 h2]

/-! ## Numbers passed as task numbers -/

theorem toDigitsCore_length_le (fuel : Nat) :
    ∀ (n e : Nat) (ds : List Char), 1 ≤ e → n < 10 ^ e →
      (Nat.toDigitsCore 10 fuel n ds).length ≤ e + ds.length := by
  induction fuel with
  | zero =>
    intro n e ds _ _
    simp [Nat.toDigitsCore]
  | succ fuel ih =>
    intro n e ds he hn
    unfold Nat.toDigitsCore
    by_cases h0 : n / 10 = 0
    · simp only [h0, if_true, List.length_cons]
      omega
    · simp only [h0, if_false]
      have he2 : 2 ≤ e := by
        by_contra hlt
        have : e = 1 := by omega
        subst this
        have : n < 10 := by simpa using hn
        omega
      have hdiv : n / 10 < 10 ^ (e - 1) := by
        rw [Nat.div_lt_iff_lt_mul (by decide)]
        have : 10 ^ (e - 1) * 10 = 10 ^ e := by
          rw [← Nat.pow_succ]
          congr 1
          omega
        rw [this]
        exact hn
      have := ih (n / 10) (e - 1) (Nat.digitChar (n % 10) :: ds) (by omega) hdiv
      simp only [List.length_cons] at this
      omega

theorem toDigits_length_le (n e : Nat) (he : 1 ≤ e) (hn : n < 10 ^ e) :
    (Nat.toDigits 10 n).length ≤ e := by
  have := toDigitsCore_length_le (n + 1) n e [] he hn
  simpa [Nat.toDigits] using this

theorem nearestNumber_of_lt (v : Nat) (h : v < 2 ^ 53) : nearestNumber v = v := by
  unfold nearestNumber
  rw [if_pos h]

theorem roundTripCandidate_spec (x k v : Nat) (h : roundTripCandidate x k = some v) :
    nearestNumber v = nearestNumber x ∧
      ∃ j, j ≤ (Nat.toDigits 10 x).length ∧
        (v = x / 10 ^ j * 10 ^ j ∨ v = x / 10 ^ j * 10 ^ j + 10 ^ j) := by
  unfold roundTripCandidate at h
  simp only at h
  have hj : (Nat.toDigits 10 x).length - k ≤ (Nat.toDigits 10 x).length := Nat.sub_le _ _
  split at h
  · rename_i hboth
    simp only [Bool.and_eq_true, decide_eq_true_eq] at hboth
    split at h
    · cases h; exact ⟨hboth.1, _, hj, Or.inl rfl⟩
    · split at h
      · cases h; exact ⟨hboth.2, _, hj, Or.inr rfl⟩
      · split at h
        · cases h; exact ⟨hboth.1, _, hj, Or.inl rfl⟩
        · cases h; exact ⟨hboth.2, _, hj, Or.inr rfl⟩
  · split at h
    · rename_i hlo
      simp only [decide_eq_true_eq] at hlo
      cases h; exact ⟨hlo, _, hj, Or.inl rfl⟩
    · split at h
      · rename_i hhi
        simp only [decide_eq_true_eq] at hhi
        cases h; exact ⟨hhi, _, hj, Or.inr rfl⟩
      · cases h

theorem shortestRoundTrip_spec (x : Nat) :
    nearestNumber (shortestRoundTrip x) = nearestNumber x ∧
      (shortestRoundTrip x = x ∨
        ∃ j, j ≤ (Nat.toDigits 10 x).length ∧
          (shortestRoundTrip x = x / 10 ^ j * 10 ^ j ∨
            shortestRoundTrip x = x / 10 ^ j * 10 ^ j + 10 ^ j)) := by
  unfold shortestRoundTrip
  cases hf : ((List.range 17).map (· + 1)).findSome? (roundTripCandidate x) with
  | none => exact ⟨rfl, Or.inl rfl⟩
  | some v =>
    obtain ⟨k, -, hk⟩ := List.exists_of_findSome?_eq_some hf
    obtain ⟨h1, h2⟩ := roundTripCandidate_spec x k v hk
    exact ⟨h1, Or.inr h2⟩

/-- For a Number from `2^53` up to `10^21`, the shortest decimal that reads
back as it lies in the same range. -/
theorem shortestRoundTrip_bounds (x : Nat) (hnum : nearestNumber x = x)
    (hlow : 2 ^ 53 ≤ x) (hhigh : x < 10 ^ 21) :
    2 ^ 53 ≤ shortestRoundTrip x ∧ shortestRoundTrip x < 10 ^ 21 := by
  obtain ⟨hround, hshape⟩ := shortestRoundTrip_spec x
  rw [hnum] at hround
  constructor
  · by_contra hlt
    have := nearestNumber_of_lt _ (Nat.lt_of_not_ge hlt)
    omega
  · rcases hshape with h | ⟨j, hj, h | h⟩
    · omega
    · have := Nat.div_mul_le_self x (10 ^ j)
      omega
    · have hj21 : j ≤ 21 := le_trans hj (toDigits_length_le x 21 (by decide) hhigh)
      have hpos : 0 < 10 ^ j := by positivity
      have hsplit : 10 ^ (21 - j) * 10 ^ j = 10 ^ 21 := by
        rw [← Nat.pow_add]
        congr 1
        omega
      have hdiv : x / 10 ^ j < 10 ^ (21 - j) := by
        rw [Nat.div_lt_iff_lt_mul hpos, hsplit]
        exact hhigh
      have hle : (x / 10 ^ j + 1) * 10 ^ j ≤ 10 ^ (21 - j) * 10 ^ j :=
        Nat.mul_le_mul_right _ hdiv
      rw [hsplit, Nat.add_mul, Nat.one_mul] at hle
      have hne : shortestRoundTrip x ≠ 10 ^ 21 := by
        intro heq
        rw [heq] at hround
        have h21 : nearestNumber (10 ^ 21) = 10 ^ 21 := by decide
        omega
      omega

theorem parseInt_minus (text : JSString) :
    parseInt ('-' :: text) = none ∨ ∃ m : Int, m ≤ 0 ∧ parseInt ('-' :: text) = some m := by
  have hm : isWhiteSpace '-' = false := by decide
  unfold parseInt
  simp only [List.dropWhile_cons, hm, Bool.false_eq_true, if_false, List.head?_cons,
    true_or, if_true, List.tail_cons]
  have key : ∀ (z : JSString) (radix : Nat),
      (if z = [] then (none : Option Int) else some (-1 * (digitsValue radix z : Int))) = none ∨
      ∃ m : Int, m ≤ 0 ∧
        (if z = [] then (none : Option Int) else some (-1 * (digitsValue radix z : Int))) =
          some m := by
    intro z radix
    by_cases hz : z = []
    · left; rw [if_pos hz]
    · right
      refine ⟨_, ?_, by rw [if_neg hz]⟩
      have : (0 : Int) ≤ ((digitsValue radix z : Nat) : Int) := Int.ofNat_nonneg _
      omega
  split
  · exact key _ _
  · exact key _ _

theorem completeTask_rejects (env : Env) (storage : Storage) (tasks : List Task)
    (taskNumber : JSString)
    (hread : (readTasksFromFile storage).1 = .array tasks)
    (hbad : parseInt taskNumber = none ∨
      ∃ n : Int, parseInt taskNumber = some n ∧ (n < 1 ∨ n > tasks.length)) :
    (completeTask env taskNumber storage).result = .returned false ∧
    (completeTask env taskNumber storage).storage = storage ∧
    (removeTask env taskNumber storage).result = .returned false ∧
    (removeTask env taskNumber storage).storage = storage := by
  rcases hbad with hnan | ⟨n, hn, hout⟩
  · simp [completeTask, removeTask, hread, validateTaskNumber_nan taskNumber tasks.length hnan]
  · rw [completeTask_invalid env storage tasks taskNumber n hread hn hout,
      removeTask_invalid env storage tasks taskNumber n hread hn hout]
    exact ⟨rfl, rfl, rfl, rfl⟩

theorem stringOfNumber_rejected (n : Int) (length : Nat)
    (hnum : nearestNumber n.natAbs = n.natAbs)
    (hsmall : -(10 : Int) ^ 21 < n ∧ n < (10 : Int) ^ 21)
    (hlen : length < 2 ^ 32)
    (hout : n < 1 ∨ n > length) :
    parseInt (stringOfNumber n) = none ∨
      ∃ m : Int, parseInt (stringOfNumber n) = some m ∧ (m < 1 ∨ m > length) := by
  unfold stringOfNumber
  by_cases hsafe : n.natAbs < 2 ^ 53
  · rw [if_pos hsafe]
    exact Or.inr ⟨n, parseInt_numberToString n, hout⟩
  · rw [if_neg hsafe]
    by_cases hneg : n < 0
    · simp only [hneg, if_true]
      rcases parseInt_minus
        (if shortestRoundTrip n.natAbs < 10 ^ 21 then Nat.toDigits 10 (shortestRoundTrip n.natAbs)
          else exponentForm (shortestRoundTrip n.natAbs)) with h | ⟨m, hm, h⟩
      · exact Or.inl h
      · exact Or.inr ⟨m, h, Or.inl (by omega)⟩
    · simp only [hneg, if_false]
      have habs : n.natAbs < 10 ^ 21 := by omega
      obtain ⟨hlo, hhi⟩ := shortestRoundTrip_bounds n.natAbs hnum (by omega) habs
      rw [if_pos hhi]
      obtain ⟨hne, hall, hval⟩ := toDigits_spec (shortestRoundTrip n.natAbs)
      have hp := (parseInt_decimal _ hne hall).1
      rw [hval] at hp
      refine Or.inr ⟨_, hp, Or.inr ?_⟩
      have h32 : (2 : Nat) ^ 32 < 2 ^ 53 := by decide
      omega

/-- C3, as amended: when the stored collection is `tasks`, of a length below
`2^32` as the length of every array, and the integer `n`, the value of a Number
and below `10^21` in absolute value, is below 1 or above the length (every such
`n` when the collection is empty), `completeTask` and `removeTask` called with
`n` both return `false` and leave the storage as it was, whether or not a write
would succeed. -/
theorem task_number_out_of_range_rejected (env : Env) (storage : Storage) (tasks : List Task)
    (n : Int)
    (hread : (readTasksFromFile storage).1 = .array tasks)
    (hlen : tasks.length < 2 ^ 32)
    (hnum : nearestNumber n.natAbs = n.natAbs)
    (hsmall : -(10 : Int) ^ 21 < n ∧ n < (10 : Int) ^ 21)
    (hout : n < 1 ∨ n > tasks.length) :
    (completeTask env (stringOfNumber n) storage).result = .returned false ∧
    (completeTask env (stringOfNumber n) storage).storage = storage ∧
    (removeTask env (stringOfNumber n) storage).result = .returned false ∧
    (removeTask env (stringOfNumber n) storage).storage = storage :=
  completeTask_rejects env storage tasks (stringOfNumber n) hread
    (stringOfNumber_rejected n tasks.length hnum hsmall hlen hout)

/-- C3 as amended, at the task numbers 3 and `2^64` on a collection of two
tasks. -/
theorem task_number_out_of_range_rejected_witness :
    (completeTask ⟨0, "t".toList, none⟩ (stringOfNumber 3)
        (.holds (.array [⟨1, "a".toList, STATUS.PENDING, "t0".toList, none⟩,
          ⟨2, "b".toList, STATUS.PENDING, "t0".toList, none⟩]))).result = .returned false ∧
    (removeTask ⟨0, "t".toList, none⟩ (stringOfNumber 18446744073709551616)
        (.holds (.array [⟨1, "a".toList, STATUS.PENDING, "t0".toList, none⟩,
          ⟨2, "b".toList, STATUS.PENDING, "t0".toList, none⟩]))).storage =
      .holds (.array [⟨1, "a".toList, STATUS.PENDING, "t0".toList, none⟩,
          ⟨2, "b".toList, STATUS.PENDING, "t0".toList, none⟩]) :=
  ⟨(task_number_out_of_range_rejected ⟨0, "t".toList, none⟩
      (.holds (.array [⟨1, "a".toList, STATUS.PENDING, "t0".toList, none⟩,
        ⟨2, "b".toList, STATUS.PENDING, "t0".toList, none⟩]))
      [⟨1, "a".toList, STATUS.PENDING, "t0".toList, none⟩,
        ⟨2, "b".toList, STATUS.PENDING, "t0".toList, none⟩] 3 rfl (by decide) (by decide)
      (by decide) (by decide)).1,
    (task_number_out_of_range_rejected ⟨0, "t".toList, none⟩
      (.holds (.array [⟨1, "a".toList, STATUS.PENDING, "t0".toList, none⟩,
        ⟨2, "b".toList, STATUS.PENDING, "t0".toList, none⟩]))
      [⟨1, "a".toList, STATUS.PENDING, "t0".toList, none⟩,
        ⟨2, "b".toList, STATUS.PENDING, "t0".toList, none⟩] 18446744073709551616 rfl
      (by decide) (by decide) (by decide) (by decide)).2.2.2⟩

/-- C3 as stated fails at the integer `10^21`, which is above the length of a
collection of one task: JavaScript prints it as `1e+21`, `parseInt` reads 1,
and with the write succeeding `completeTask` returns `true` and completes the
task, and `removeTask` returns `true` and removes it. -/
theorem large_task_number_accepted :
    stringOfNumber ((10 : Int) ^ 21) = "1e+21".toList ∧
    parseInt (stringOfNumber ((10 : Int) ^ 21)) = some 1 ∧
    completeTask ⟨0, "t9".toList, none⟩ (stringOfNumber ((10 : Int) ^ 21))
        (.holds (.array [⟨1, "a".toList, STATUS.PENDING, "t0".toList, none⟩])) =
      ⟨.returned true,
        .holds (.array [⟨1, "a".toList, STATUS.COMPLETED, "t0".toList, some "t9".toList⟩]),
        [.log "✅ Task 1e+21 marked as completed".toList]⟩ ∧
    removeTask ⟨0, "t9".toList, none⟩ (stringOfNumber ((10 : Int) ^ 21))
        (.holds (.array [⟨1, "a".toList, STATUS.PENDING, "t0".toList, none⟩])) =
      ⟨.returned true, .holds (.array []),
        [.log "🗑️  Task 1e+21 removed: \"a\"".toList]⟩ := by
  decide

/-- C4: when the stored collection is `tasks`, `n` is in `[1, length]` and the
task at position `n` has status COMPLETED, `completeTask` called with `n`
returns `false` and leaves the storage as it was, so the collection read back
is `tasks` and the `completedAt` of that task is the one it had. -/
theorem completeTask_completed_rejected (env : Env) (storage : Storage) (tasks : List Task)
    (n : Int) (task : Task)
    (hread : (readTasksFromFile storage).1 = .array tasks)
    (h1 : 1 ≤ n) (h2 : n ≤ tasks.length)
    (htask : tasks[(n - 1).toNat]? = some task)
    (hdone : task.status = STATUS.COMPLETED) :
    (completeTask env (numberToString n) storage).result = .returned false ∧
    (completeTask env (numberToString n) storage).storage = storage ∧
    (readTasksFromFile (completeTask env (numberToString n) storage).storage).1 =
      .array tasks := by
  rw [completeTask_already env storage tasks _ n task hread (parseInt_numberToString n) h1 h2
    htask hdone]
  exact ⟨rfl, rfl, hread⟩

/-- C4, at task number 1 of a collection whose first task is completed. -/
theorem completeTask_completed_rejected_witness :
    (completeTask ⟨0, "t9".toList, none⟩ (numberToString 1)
        (.holds (.array [⟨1, "a".toList, STATUS.COMPLETED, "t0".toList,
          some "t1".toList⟩]))).result = .returned false ∧
    (completeTask ⟨0, "t9".toList, none⟩ (numberToString 1)
        (.holds (.array [⟨1, "a".toList, STATUS.COMPLETED, "t0".toList,
          some "t1".toList⟩]))).storage =
      .holds (.array [⟨1, "a".toList, STATUS.COMPLETED, "t0".toList, some "t1".toList⟩]) :=
  have h := completeTask_completed_rejected ⟨0, "t9".toList, none⟩
    (.holds (.array [⟨1, "a".toList, STATUS.COMPLETED, "t0".toList, some "t1".toList⟩]))
    [⟨1, "a".toList, STATUS.COMPLETED, "t0".toList, some "t1".toList⟩] 1
    ⟨1, "a".toList, STATUS.COMPLETED, "t0".toList, some "t1".toList⟩ rfl (by decide) (by decide)
    rfl rfl
  ⟨h.1, h.2.1⟩


/-- C5: when the stored collection is `tasks`, `n` is in `[1, length]`, the
task at position `n` is PENDING and the write succeeds, `completeTask` called
with `n` returns `true` and the file holds a collection of the same length that
differs from `tasks` at position `n` only: there the task keeps its id,
description and `createdAt`, has status COMPLETED and has `completedAt` set to
the current time; at every other position the task is the one of `tasks`. -/
theorem completeTask_pending_completes (env : Env) (storage : Storage) (tasks : List Task)
    (n : Int) (task : Task)
    (hread : (readTasksFromFile storage).1 = .array tasks)
    (h1 : 1 ≤ n) (h2 : n ≤ tasks.length)
    (htask : tasks[(n - 1).toNat]? = some task)
    (hpending : task.status = STATUS.PENDING)
    (hwrite : env.writeError = none) :
    (completeTask env (numberToString n) storage).result = .returned true ∧
    ∃ after : List Task,
      (completeTask env (numberToString n) storage).storage = .holds (.array after) ∧
      after.length = tasks.length ∧
      after[(n - 1).toNat]? =
        some ⟨task.id, task.description, STATUS.COMPLETED, task.createdAt, some env.isoNow⟩ ∧
      ∀ i : Nat, i ≠ (n - 1).toNat → after[i]? = tasks[i]? := by
  have hnot : task.status ≠ STATUS.COMPLETED := by
    rw [hpending]; decide
  rw [completeTask_pending env storage tasks _ n task hread (parseInt_numberToString n) h1 h2
    htask hnot hwrite]
  refine ⟨rfl, _, rfl, List.length_set _ _ _, ?_, ?_⟩
  · rw [List.getElem?_set_self (by omega)]
  · intro i hi
    rw [List.getElem?_set_ne (Ne.symm hi)]

/-- C5, at task number 2 of a collection of two pending tasks. -/
theorem completeTask_pending_completes_witness :
    (completeTask ⟨0, "t9".toList, none⟩ (numberToString 2)
        (.holds (.array [⟨1, "a".toList, STATUS.PENDING, "t0".toList, none⟩,
          ⟨2, "b".toList, STATUS.PENDING, "t1".toList, none⟩]))).result = .returned true :=
  (completeTask_pending_completes ⟨0, "t9".toList, none⟩
    (.holds (.array [⟨1, "a".toList, STATUS.PENDING, "t0".toList, none⟩,
      ⟨2, "b".toList, STATUS.PENDING, "t1".toList, none⟩]))
    [⟨1, "a".toList, STATUS.PENDING, "t0".toList, none⟩,
      ⟨2, "b".toList, STATUS.PENDING, "t1".toList, none⟩] 2
    ⟨2, "b".toList, STATUS.PENDING, "t1".toList, none⟩ rfl (by decide) (by decide)
    rfl rfl rfl).1

/-- C6: when the stored collection is `tasks`, `n` is in `[1, length]` and the
write succeeds, `removeTask` called with `n` returns `true`; the file holds
`tasks` without its element at position `n`: one task fewer, the tasks before
position `n` where they were, the tasks after it one position down, in the same
order; and the last line printed names the description of the removed task. -/
theorem removeTask_deletes_position (env : Env) (storage : Storage) (tasks : List Task)
    (n : Int) (task : Task)
    (hread : (readTasksFromFile storage).1 = .array tasks)
    (h1 : 1 ≤ n) (h2 : n ≤ tasks.length)
    (htask : tasks[(n - 1).toNat]? = some task)
    (hwrite : env.writeError = none) :
    (removeTask env (numberToString n) storage).result = .returned true ∧
    (removeTask env (numberToString n) storage).out =
      (readTasksFromFile storage).2 ++
        [.log ("🗑️  Task ".toList ++ numberToString n ++ " removed: \"".toList ++
          task.description ++ "\"".toList)] ∧
    ∃ after : List Task,
      (removeTask env (numberToString n) storage).storage = .holds (.array after) ∧
      after = tasks.eraseIdx (n - 1).toNat ∧
      after.length = tasks.length - 1 ∧
      (∀ i : Nat, i < (n - 1).toNat → after[i]? = tasks[i]?) ∧
      (∀ i : Nat, (n - 1).toNat ≤ i → after[i]? = tasks[i + 1]?) := by
  rw [removeTask_valid env storage tasks _ n task hread (parseInt_numberToString n) h1 h2
    htask hwrite]
  refine ⟨rfl, rfl, _, rfl, rfl, ?_, ?_, ?_⟩
  · rw [List.length_eraseIdx_of_lt (by omega)]
  · intro i hi
    exact List.getElem?_eraseIdx_of_lt _ _ _ hi
  · intro i hi
    exact List.getElem?_eraseIdx_of_ge _ _ _ hi

/-- C6, at task number 1 of a collection of two tasks. -/
theorem removeTask_deletes_position_witness :
    (removeTask ⟨0, "t9".toList, none⟩ (numberToString 1)
        (.holds (.array [⟨1, "a".toList, STATUS.PENDING, "t0".toList, none⟩,
          ⟨2, "b".toList, STATUS.PENDING, "t1".toList, none⟩]))).result = .returned true ∧
    (removeTask ⟨0, "t9".toList, none⟩ (numberToString 1)
        (.holds (.array [⟨1, "a".toList, STATUS.PENDING, "t0".toList, none⟩,
          ⟨2, "b".toList, STATUS.PENDING, "t1".toList, none⟩]))).out =
      [.log ("🗑️  Task ".toList ++ numberToString 1 ++ " removed: \"".toList ++
          "a".toList ++ "\"".toList)] :=
  have h := removeTask_deletes_position ⟨0, "t9".toList, none⟩
    (.holds (.array [⟨1, "a".toList, STATUS.PENDING, "t0".toList, none⟩,
      ⟨2, "b".toList, STATUS.PENDING, "t1".toList, none⟩]))
    [⟨1, "a".toList, STATUS.PENDING, "t0".toList, none⟩,
      ⟨2, "b".toList, STATUS.PENDING, "t1".toList, none⟩] 1
    ⟨1, "a".toList, STATUS.PENDING, "t0".toList, none⟩ rfl (by decide) (by decide)
    rfl rfl
  ⟨h.1, h.2.1⟩


/-! ## The parser -/

theorem isWhiteSpace_of_isWordChar {c : Char} (h : isWordChar c = true) :
    isWhiteSpace c = false := by
  simp only [isWordChar, Bool.or_eq_true, Bool.and_eq_true, decide_eq_true_eq] at h
  simp [isWhiteSpace]
  omega

theorem isWordChar_of_isWhiteSpace {c : Char} (h : isWhiteSpace c = true) :
    isWordChar c = false := by
  cases hw : isWordChar c with
  | false => rfl
  | true => rw [isWhiteSpace_of_isWordChar hw] at h; cases h

theorem takeWhile_dropWhile_stop (p : Char → Bool) (a : List Char) (x : Char) (b : List Char)
    (ha : ∀ c ∈ a, p c = true) (hx : p x = false) :
    (a ++ x :: b).takeWhile p = a ∧ (a ++ x :: b).dropWhile p = x :: b := by
  rw [List.takeWhile_append_of_pos ha, List.dropWhile_append_of_pos ha]
  simp [List.takeWhile_cons, List.dropWhile_cons, hx]

/-- The matcher accepts exactly the strings of the quoted form, with the same
captures. -/
theorem matchQuoted_eq_some_iff (quote : Char) (hqw : isWordChar quote = false)
    (hqs : isWhiteSpace quote = false) (s word text : JSString) :
    matchQuoted quote s = some (word, text) ↔ IsQuotedForm quote s word text := by
  constructor
  · intro h
    unfold matchQuoted at h
    simp only at h
    split at h
    · cases h
    · rename_i hne
      rw [not_or] at hne
      split at h
      · cases h
      · rename_i q rest hafter
        split at h
        · cases h
        · rename_i hq
          rw [ne_eq, not_not] at hq
          subst hq
          split at h
          · cases h
          · rename_i hlast
            rw [ne_eq, not_not] at hlast
            split at h
            · cases h
            · rename_i htext
              rw [not_or] at htext
              simp only [Option.some.injEq, Prod.mk.injEq] at h
              obtain ⟨hw, ht⟩ := h
              refine ⟨(s.dropWhile isWordChar).takeWhile isWhiteSpace, ?_, ?_, ?_, hne.2, ?_, ?_, ?_⟩
              · have e1 := List.takeWhile_append_dropWhile isWordChar s
                have e2 := List.takeWhile_append_dropWhile isWhiteSpace (s.dropWhile isWordChar)
                have e3 := List.dropLast_append_getLast? q (by rw [hlast]; exact rfl)
                rw [hafter] at e2
                rw [← hw, ← ht]
                conv_lhs => rw [← e1, ← e2, ← e3]
                simp
              · rw [← hw]; exact hne.1
              · intro c hc
                rw [← hw] at hc
                exact List.mem_takeWhile_imp hc
              · intro c hc
                exact List.mem_takeWhile_imp hc
              · rw [← ht]; exact htext.1
              · rw [← ht]; exact htext.2
  · rintro ⟨space, rfl, hw, hwc, hs, hsc, ht, htc⟩
    obtain ⟨x, xs, rfl⟩ := List.exists_cons_of_ne_nil hs
    have hx : isWordChar x = false := isWordChar_of_isWhiteSpace (hsc x (by simp))
    have e : word ++ x :: xs ++ [quote] ++ text ++ [quote] =
        word ++ x :: (xs ++ quote :: (text ++ [quote])) := by simp
    obtain ⟨t1, d1⟩ := takeWhile_dropWhile_stop isWordChar word x
      (xs ++ quote :: (text ++ [quote])) hwc hx
    have e2 : x :: (xs ++ quote :: (text ++ [quote])) =
        (x :: xs) ++ quote :: (text ++ [quote]) := by simp
    obtain ⟨t2, d2⟩ := takeWhile_dropWhile_stop isWhiteSpace (x :: xs) quote
      (text ++ [quote]) hsc hqs
    unfold matchQuoted
    simp only [e, t1, d1]
    rw [e2]
    simp only [t2, d2]
    simp [hw, ht, htc]

theorem isWordChar_dquote : isWordChar dquote = false := by decide
theorem isWhiteSpace_dquote : isWhiteSpace dquote = false := by decide
theorem isWordChar_squote : isWordChar squote = false := by decide
theorem isWhiteSpace_squote : isWhiteSpace squote = false := by decide

theorem matchQuoted_dquote_squote_form (s word text : JSString)
    (h : IsQuotedForm squote s word text) : matchQuoted dquote s = none := by
  cases hm : matchQuoted dquote s with
  | none => rfl
  | some p =>
    exfalso
    obtain ⟨w, t⟩ := p
    obtain ⟨sp, hs, -⟩ := (matchQuoted_eq_some_iff dquote isWordChar_dquote isWhiteSpace_dquote
      s w t).1 hm
    obtain ⟨sp2, hs2, -⟩ := h
    have h1 : s.getLast? = some dquote := by rw [hs, List.getLast?_concat]
    have h2 : s.getLast? = some squote := by rw [hs2, List.getLast?_concat]
    rw [h1] at h2
    exact absurd h2 (by decide)

theorem parseInput_of_quotedForm (input word text : JSString) (quote : Char)
    (hquote : quote = dquote ∨ quote = squote)
    (hf : IsQuotedForm quote (trim input) word text) :
    parseInput input = ⟨toLowerCase word, [text]⟩ := by
  have hne : trim input ≠ [] := by
    obtain ⟨space, hform, -⟩ := hf
    rw [hform]; simp
  unfold parseInput
  simp only [hne, if_false]
  rcases hquote with rfl | rfl
  · rw [(matchQuoted_eq_some_iff dquote isWordChar_dquote isWhiteSpace_dquote _ _ _).2 hf]
    rfl
  · rw [matchQuoted_dquote_squote_form _ _ _ hf,
      (matchQuoted_eq_some_iff squote isWordChar_squote isWhiteSpace_squote _ _ _).2 hf]
    rfl

/-- C8: when the trimmed line is a word of `[A-Za-z0-9_]`, then white space,
then a double or single quote, then a non-empty text without that quote, then
the same quote, `parseInput` returns the word in lower case as the command and
the text alone, as it stands, as the arguments. -/
theorem parseInput_quoted (input word space text : JSString) (quote : Char)
    (hquote : quote = dquote ∨ quote = squote)
    (hform : trim input = word ++ space ++ [quote] ++ text ++ [quote])
    (hword : word ≠ []) (hwordc : ∀ c ∈ word, isWordChar c = true)
    (hspace : space ≠ []) (hspacec : ∀ c ∈ space, isWhiteSpace c = true)
    (htext : text ≠ []) (htextc : quote ∉ text) :
    parseInput input = ⟨toLowerCase word, [text]⟩ :=
  parseInput_of_quotedForm input word text quote hquote
    ⟨space, hform, hword, hwordc, hspace, hspacec, htext, htextc⟩

/-- C8, at the line `add "buy milk"`. -/
theorem parseInput_quoted_witness :
    parseInput "add \"buy milk\"".toList = ⟨"add".toList, ["buy milk".toList]⟩ :=
  parseInput_quoted "add \"buy milk\"".toList "add".toList " ".toList "buy milk".toList dquote
    (Or.inl rfl) (by decide) (by decide) (by decide) (by decide) (by decide) (by decide)
    (by decide)


theorem splitWhiteSpace_single {c : Char} (hc : isWhiteSpace c = true) :
    splitWhiteSpace [c] = [[], []] := by
  rw [splitWhiteSpace]
  simp only [hc, if_true]
  rfl

theorem splitWhiteSpace_ws_ws {c d : Char} (ds : JSString) (hc : isWhiteSpace c = true)
    (hd : isWhiteSpace d = true) :
    splitWhiteSpace (c :: d :: ds) = splitWhiteSpace (d :: ds) := by
  rw [splitWhiteSpace]
  simp only [hc, hd, if_true]

theorem splitWhiteSpace_ws_other {c d : Char} (ds : JSString) (hc : isWhiteSpace c = true)
    (hd : isWhiteSpace d = false) :
    splitWhiteSpace (c :: d :: ds) = [] :: splitWhiteSpace (d :: ds) := by
  rw [splitWhiteSpace]
  simp only [hc, hd, if_true, Bool.false_eq_true, if_false]

theorem splitWhiteSpace_other {c : Char} (cs first : JSString) (rest : List JSString)
    (hc : isWhiteSpace c = false) (h : splitWhiteSpace cs = first :: rest) :
    splitWhiteSpace (c :: cs) = (c :: first) :: rest := by
  rw [splitWhiteSpace.eq_def]
  simp only [hc, Bool.false_eq_true, if_false, h]

/-- What `splitWhiteSpace` computes, stated on the string: `s` is a first piece
followed by pairs of a separator and a piece; separators are non-empty runs of
white space, pieces hold no white space, the first piece is empty only when `s`
is empty or starts with white space, and a later piece is empty only when `s`
ends with white space. -/
theorem splitWhiteSpace_spec (s : JSString) :
    ∃ (first : JSString) (pairs : List (JSString × JSString)),
      splitWhiteSpace s = first :: pairs.map Prod.snd ∧
      s = first ++ (pairs.map fun p => p.1 ++ p.2).flatten ∧
      (∀ c ∈ first, isWhiteSpace c = false) ∧
      (∀ p ∈ pairs, p.1 ≠ [] ∧ (∀ c ∈ p.1, isWhiteSpace c = true) ∧
        ∀ c ∈ p.2, isWhiteSpace c = false) ∧
      (first = [] → s = [] ∨ ∃ c, s.head? = some c ∧ isWhiteSpace c = true) ∧
      (∀ p ∈ pairs, p.2 = [] → ∃ c, s.getLast? = some c ∧ isWhiteSpace c = true) := by
  induction s with
  | nil => exact ⟨[], [], rfl, rfl, by simp, by simp, by simp, by simp⟩
  | cons c cs ih =>
    obtain ⟨first, pairs, hsplit, hcat, hfirst, hpairs, hhead, hlast⟩ := ih
    by_cases hc : isWhiteSpace c = true
    · cases cs with
      | nil =>
        refine ⟨[], [([c], [])], ?_, by simp, by simp, ?_, ?_, ?_⟩
        · exact splitWhiteSpace_single hc
        · intro p hp
          rw [List.mem_singleton] at hp
          subst hp
          simp [hc]
        · intro _; right; exact ⟨c, rfl, hc⟩
        · intro p _ _; exact ⟨c, rfl, hc⟩
      | cons d ds =>
        by_cases hd : isWhiteSpace d = true
        · have hf : first = [] := by
            cases first with
            | nil => rfl
            | cons f fs =>
              exfalso
              have : d = f := by
                have h := congrArg List.head? hcat
                simpa using h
              have hf := hfirst f (by simp)
              rw [← this, hd] at hf
              cases hf
          subst hf
          cases pairs with
          | nil => simp at hcat
          | cons p ps =>
            refine ⟨[], (c :: p.1, p.2) :: ps, ?_, ?_, by simp, ?_, ?_, ?_⟩
            · rw [splitWhiteSpace_ws_ws ds hc hd, hsplit]; rfl
            · rw [hcat]; simp
            · intro q hq
              rcases List.mem_cons.1 hq with rfl | hq
              · have hp := hpairs p (by simp)
                refine ⟨by simp, ?_, hp.2.2⟩
                intro x hx
                rcases List.mem_cons.1 hx with rfl | hx
                · exact hc
                · exact hp.2.1 x hx
              · exact hpairs q (List.mem_cons_of_mem _ hq)
            · intro _; right; exact ⟨c, rfl, hc⟩
            · intro q hq hq2
              have : ∃ q' ∈ p :: ps, q'.2 = [] := by
                rcases List.mem_cons.1 hq with rfl | hq
                · exact ⟨p, by simp, hq2⟩
                · exact ⟨q, List.mem_cons_of_mem _ hq, hq2⟩
              obtain ⟨q', hq', hq2'⟩ := this
              obtain ⟨x, hx, hxw⟩ := hlast q' hq' hq2'
              exact ⟨x, by rw [List.getLast?_cons_cons]; exact hx, hxw⟩
        · have hd' : isWhiteSpace d = false := by simpa using hd
          have hfne : first ≠ [] := by
            intro hf
            rcases hhead hf with h | ⟨x, hx, hxw⟩
            · cases h
            · simp only [List.head?_cons, Option.some.injEq] at hx
              rw [← hx, hd'] at hxw
              cases hxw
          refine ⟨[], ([c], first) :: pairs, ?_, ?_, by simp, ?_, ?_, ?_⟩
          · rw [splitWhiteSpace_ws_other ds hc hd', hsplit]; rfl
          · rw [hcat]; simp
          · intro q hq
            rcases List.mem_cons.1 hq with rfl | hq
            · refine ⟨by simp, ?_, hfirst⟩
              intro x hx
              rw [List.mem_singleton] at hx
              rw [hx]; exact hc
            · exact hpairs q hq
          · intro _; right; exact ⟨c, rfl, hc⟩
          · intro q hq hq2
            rcases List.mem_cons.1 hq with rfl | hq
            · exact absurd hq2 hfne
            · obtain ⟨x, hx, hxw⟩ := hlast q hq hq2
              exact ⟨x, by rw [List.getLast?_cons_cons]; exact hx, hxw⟩
    · have hc' : isWhiteSpace c = false := by simpa using hc
      refine ⟨c :: first, pairs, ?_, ?_, ?_, hpairs, by simp, ?_⟩
      · exact splitWhiteSpace_other cs first _ hc' hsplit
      · rw [hcat]; simp
      · intro x hx
        rcases List.mem_cons.1 hx with rfl | hx
        · exact hc'
        · exact hfirst x hx
      · intro q hq hq2
        obtain ⟨x, hx, hxw⟩ := hlast q hq hq2
        cases cs with
        | nil => simp at hx
        | cons d ds => exact ⟨x, by rw [List.getLast?_cons_cons]; exact hx, hxw⟩


theorem hasQuotedForm_iff (s : JSString) :
    HasQuotedForm s ↔ matchQuoted dquote s ≠ none ∨ matchQuoted squote s ≠ none := by
  constructor
  · rintro ⟨word, text, h | h⟩
    · left
      rw [(matchQuoted_eq_some_iff dquote isWordChar_dquote isWhiteSpace_dquote _ _ _).2 h]
      simp
    · right
      rw [(matchQuoted_eq_some_iff squote isWordChar_squote isWhiteSpace_squote _ _ _).2 h]
      simp
  · rintro (h | h)
    · cases hm : matchQuoted dquote s with
      | none => exact absurd hm h
      | some p =>
        exact ⟨p.1, p.2, Or.inl
          ((matchQuoted_eq_some_iff dquote isWordChar_dquote isWhiteSpace_dquote _ _ _).1 hm)⟩
    · cases hm : matchQuoted squote s with
      | none => exact absurd hm h
      | some p =>
        exact ⟨p.1, p.2, Or.inr
          ((matchQuoted_eq_some_iff squote isWordChar_squote isWhiteSpace_squote _ _ _).1 hm)⟩

theorem trim_ne_nil_iff (s : JSString) :
    trim s ≠ [] ↔ ∃ c ∈ s, isWhiteSpace c = false := by
  rw [ne_eq, trim_eq_nil_iff]
  simp

theorem trim_head_not_space (s : JSString) (c : Char) (h : (trim s).head? = some c) :
    isWhiteSpace c = false := by
  obtain ⟨t, ht⟩ : trim s <+: s.dropWhile isWhiteSpace := List.rdropWhile_prefix _ _
  cases hts : trim s with
  | nil => rw [hts] at h; cases h
  | cons x xs =>
    rw [hts] at h ht
    simp only [List.head?_cons, Option.some.injEq] at h
    subst h
    have hne : s.dropWhile isWhiteSpace ≠ [] := by rw [← ht]; simp
    have hh := List.head_dropWhile_not isWhiteSpace s hne
    simp only [← ht, List.cons_append, List.head_cons] at hh
    exact hh

theorem trim_last_not_space (s : JSString) (c : Char) (h : (trim s).getLast? = some c) :
    isWhiteSpace c = false := by
  have hne : trim s ≠ [] := by
    intro h0; rw [h0] at h; cases h
  have hl := List.rdropWhile_last_not (p := isWhiteSpace) (l := s.dropWhile isWhiteSpace) hne
  have hc : (trim s).getLast hne = c := by
    rw [List.getLast?_eq_getLast _ hne] at h
    exact Option.some.inj h
  unfold trim at hc
  rw [hc] at hl
  simpa using hl

theorem parseInput_plain (input : JSString)
    (hnonblank : ∃ c ∈ input, isWhiteSpace c = false)
    (hplain : ¬ HasQuotedForm (trim input)) :
    ∃ (first : JSString) (pairs : List (JSString × JSString)),
      parseInput input = ⟨toLowerCase first, pairs.map Prod.snd⟩ ∧
      splitWhiteSpace (trim input) = first :: pairs.map Prod.snd ∧
      trim input = first ++ (pairs.map fun p => p.1 ++ p.2).flatten ∧
      first ≠ [] ∧ (∀ c ∈ first, isWhiteSpace c = false) ∧
      (∀ p ∈ pairs, p.1 ≠ [] ∧ (∀ c ∈ p.1, isWhiteSpace c = true) ∧
        p.2 ≠ [] ∧ ∀ c ∈ p.2, isWhiteSpace c = false) := by
  have hne : trim input ≠ [] := (trim_ne_nil_iff input).2 hnonblank
  rw [hasQuotedForm_iff, not_or, not_not, not_not] at hplain
  obtain ⟨first, pairs, hsplit, hcat, hfirst, hpairs, hhead, hlast⟩ :=
    splitWhiteSpace_spec (trim input)
  refine ⟨first, pairs, ?_, hsplit, hcat, ?_, hfirst, ?_⟩
  · unfold parseInput
    simp only [hne, if_false, hplain.1, hplain.2, Option.orElse, hsplit, List.headD_cons,
      List.tail_cons]
  · intro hf
    rcases hhead hf with h | ⟨c, hc, hcw⟩
    · exact hne h
    · rw [trim_head_not_space input c hc] at hcw
      cases hcw
  · intro p hp
    obtain ⟨h1, h2, h3⟩ := hpairs p hp
    refine ⟨h1, h2, ?_, h3⟩
    intro hp2
    obtain ⟨c, hc, hcw⟩ := hlast p hp hp2
    rw [trim_last_not_space input c hc] at hcw
    cases hcw

/-- C9: for a line that is not blank and whose trimmed text has neither quoted
form, `parseInput` cuts the trimmed text at its runs of white space: the text
is a first token followed by pairs of a separator and a token, separators being
non-empty runs of white space and tokens non-empty and free of white space;
the command is the first token in lower case and the arguments are the other
tokens, in order and as they stand. -/
theorem parseInput_unquoted (input : JSString)
    (hnonblank : ∃ c ∈ input, isWhiteSpace c = false)
    (hplain : ¬ HasQuotedForm (trim input)) :
    ∃ (first : JSString) (pairs : List (JSString × JSString)),
      parseInput input = ⟨toLowerCase first, pairs.map Prod.snd⟩ ∧
      splitWhiteSpace (trim input) = first :: pairs.map Prod.snd ∧
      trim input = first ++ (pairs.map fun p => p.1 ++ p.2).flatten ∧
      first ≠ [] ∧ (∀ c ∈ first, isWhiteSpace c = false) ∧
      (∀ p ∈ pairs, p.1 ≠ [] ∧ (∀ c ∈ p.1, isWhiteSpace c = true) ∧
        p.2 ≠ [] ∧ ∀ c ∈ p.2, isWhiteSpace c = false) :=
  parseInput_plain input hnonblank hplain

/-- C9, at the line `complete 2`, which parses to the command `complete` with
the one argument `2`; the line `ÉCOLE Un ΟΔΟΣ` parses to the command `école`
with the arguments `Un` and `ΟΔΟΣ`, and the lower case of `ΟΔΟΣ İ` ends its
first word in a final sigma and writes `İ` as `i` with a combining dot. -/
theorem parseInput_unquoted_witness :
    parseInput "complete 2".toList = ⟨"complete".toList, ["2".toList]⟩ ∧
    parseInput "ÉCOLE Un ΟΔΟΣ".toList = ⟨"école".toList, ["Un".toList, "ΟΔΟΣ".toList]⟩ ∧
    toLowerCase "ΟΔΟΣ İ".toList = "οδος i̇".toList ∧
    ∃ (first : JSString) (pairs : List (JSString × JSString)),
      parseInput "complete 2".toList = ⟨toLowerCase first, pairs.map Prod.snd⟩ ∧
      splitWhiteSpace (trim "complete 2".toList) = first :: pairs.map Prod.snd ∧
      trim "complete 2".toList = first ++ (pairs.map fun p => p.1 ++ p.2).flatten ∧
      first ≠ [] ∧ (∀ c ∈ first, isWhiteSpace c = false) ∧
      (∀ p ∈ pairs, p.1 ≠ [] ∧ (∀ c ∈ p.1, isWhiteSpace c = true) ∧
        p.2 ≠ [] ∧ ∀ c ∈ p.2, isWhiteSpace c = false) :=
  ⟨by decide, by decide, by decide!,
    parseInput_unquoted "complete 2".toList ⟨'c', by decide, by decide⟩
    (by rw [hasQuotedForm_iff]; decide)⟩


theorem isUpperLatin_lowerChar (c : Char) : isUpperLatin (lowerChar c) = false := by
  have key : ∀ n : Nat, 65 ≤ n → n ≤ 90 → isUpperLatin (Char.ofNat (n + 32)) = false := by
    intro n h1 h2
    interval_cases n <;> decide
  unfold lowerChar
  by_cases h : 65 ≤ c.toNat ∧ c.toNat ≤ 90
  · rw [if_pos h]
    exact key _ h.1 h.2
  · rw [if_neg h]
    simp only [isUpperLatin, Bool.and_eq_false_iff, decide_eq_false_iff_not]
    omega

/-! ## Lower case: the mapped characters are not mapped again -/

theorem toNat_ofNat_of_valid (n : Nat) (h : n.isValidChar) : (Char.ofNat n).toNat = n := by
  unfold Char.ofNat
  rw [dif_pos h]
  rfl

set_option maxRecDepth 1000000 in
theorem lowerCaseRuns_closed :
    lowerCaseRuns.all (fun r =>
      decide (r.2.2.2 + (r.2.1 - r.1) < 0x110000) && changedCodePoints.all (imagesMiss r)) =
      true := by
  decide!

theorem simpleLowerCase_some (n m : Nat) (h : simpleLowerCase n = some m) :
    ∃ r ∈ lowerCaseRuns, r.1 ≤ n ∧ n ≤ r.2.1 ∧ (n - r.1) % r.2.2.1 = 0 ∧
      m = r.2.2.2 + (n - r.1) := by
  unfold simpleLowerCase at h
  rw [Option.map_eq_some'] at h
  obtain ⟨r, hr, rfl⟩ := h
  have hmem := List.mem_of_find?_eq_some hr
  have hp := List.find?_some hr
  simp only [Bool.and_eq_true, decide_eq_true_eq] at hp
  exact ⟨r, hmem, hp.1.1, hp.1.2, hp.2, rfl⟩

theorem simpleLowerCase_none (m : Nat)
    (h : ∀ r ∈ lowerCaseRuns, ¬ (r.1 ≤ m ∧ m ≤ r.2.1 ∧ (m - r.1) % r.2.2.1 = 0)) :
    simpleLowerCase m = none := by
  unfold simpleLowerCase
  rw [Option.map_eq_none', List.find?_eq_none]
  intro r hr
  simp only [Bool.and_eq_true, decide_eq_true_eq]
  intro hh
  exact h r hr ⟨hh.1.1, hh.1.2, hh.2⟩

theorem imagesMiss_spec (r : Nat × Nat × Nat × Nat) (d : Nat × Nat × Nat)
    (h : imagesMiss r d = true) (n : Nat) (h1 : r.1 ≤ n) (h2 : n ≤ r.2.1)
    (h3 : (n - r.1) % r.2.2.1 = 0) :
    ¬ (d.1 ≤ r.2.2.2 + (n - r.1) ∧ r.2.2.2 + (n - r.1) ≤ d.2.1 ∧
      (r.2.2.2 + (n - r.1) - d.1) % d.2.2 = 0) := by
  obtain ⟨a, b, s, img⟩ := r
  obtain ⟨a2, b2, s2⟩ := d
  simp only [imagesMiss, Bool.or_eq_true, Bool.and_eq_true, decide_eq_true_eq] at h
  simp only at h1 h2 h3 ⊢
  rintro ⟨g1, g2, g3⟩
  rcases h with (h | h) | ⟨⟨hs2, hs | hab⟩, hpar⟩
  · omega
  · omega
  · subst hs2 hs
    omega
  · subst hs2
    have hn : n = a := by omega
    subst hn
    omega

theorem simpleLowerCase_image (n m : Nat) (h : simpleLowerCase n = some m) :
    m.isValidChar ∧ ¬ (65 ≤ m ∧ m ≤ 90) ∧ m ≠ 0x3A3 ∧ m ≠ 0x130 ∧ simpleLowerCase m = none := by
  obtain ⟨r, hr, h1, h2, h3, rfl⟩ := simpleLowerCase_some n m h
  have hall := (List.all_eq_true.1 lowerCaseRuns_closed) r hr
  rw [Bool.and_eq_true, decide_eq_true_eq, List.all_eq_true] at hall
  obtain ⟨hbound, hmiss⟩ := hall
  have hle : r.2.2.2 + (n - r.1) ≤ r.2.2.2 + (r.2.1 - r.1) := by omega
  have hextra : ∀ d ∈ [((0x3A3 : Nat), (0x3A3 : Nat), (1 : Nat)), (0x130, 0x130, 1),
      (65, 90, 1), (0xD800, 0xDFFF, 1)], d ∈ changedCodePoints := by
    intro d hd
    exact List.mem_append_right _ hd
  have m1 := imagesMiss_spec r _ (hmiss _ (hextra (0x3A3, 0x3A3, 1) (by simp))) n h1 h2 h3
  have m2 := imagesMiss_spec r _ (hmiss _ (hextra (0x130, 0x130, 1) (by simp))) n h1 h2 h3
  have m3 := imagesMiss_spec r _ (hmiss _ (hextra (65, 90, 1) (by simp))) n h1 h2 h3
  have m4 := imagesMiss_spec r _ (hmiss _ (hextra (0xD800, 0xDFFF, 1) (by simp))) n h1 h2 h3
  simp only [Nat.mod_one, and_true] at m1 m2 m3 m4
  refine ⟨?_, ?_, ?_, ?_, ?_⟩
  · unfold Nat.isValidChar
    omega
  · omega
  · omega
  · omega
  · apply simpleLowerCase_none
    intro q hq
    have hd : (q.1, q.2.1, q.2.2.1) ∈ changedCodePoints :=
      List.mem_append_left _ (List.mem_map.2 ⟨q, hq, rfl⟩)
    exact imagesMiss_spec r _ (hmiss _ hd) n h1 h2 h3

theorem lowerAt_of_fixed (x : Char) (h1 : ¬ (65 ≤ x.toNat ∧ x.toNat ≤ 90))
    (h2 : x.toNat ≠ 0x3A3) (h3 : x.toNat ≠ 0x130)
    (h4 : 128 ≤ x.toNat → simpleLowerCase x.toNat = none) (b a : JSString) :
    lowerAt b x a = [x] := by
  unfold lowerAt
  by_cases hx : x.toNat < 128
  · rw [if_pos hx, lowerChar, if_neg h1]
  · rw [if_neg hx, if_neg h2, if_neg h3, h4 (by omega)]

theorem lowerAt_ofNat_of_fixed (m : Nat) (hv : m.isValidChar) (h1 : ¬ (65 ≤ m ∧ m ≤ 90))
    (h2 : m ≠ 0x3A3) (h3 : m ≠ 0x130) (h4 : 128 ≤ m → simpleLowerCase m = none)
    (b a : JSString) : lowerAt b (Char.ofNat m) a = [Char.ofNat m] := by
  have ht := toNat_ofNat_of_valid m hv
  apply lowerAt_of_fixed <;> rw [ht] <;> assumption

theorem lowerAt_fixed (before : JSString) (c : Char) (after : JSString) :
    ∀ x ∈ lowerAt before c after, ∀ b a : JSString, lowerAt b x a = [x] := by
  intro x hx b a
  unfold lowerAt at hx
  by_cases hc : c.toNat < 128
  · rw [if_pos hc, List.mem_singleton] at hx
    subst hx
    unfold lowerChar
    by_cases hu : 65 ≤ c.toNat ∧ c.toNat ≤ 90
    · rw [if_pos hu]
      apply lowerAt_ofNat_of_fixed
      · unfold Nat.isValidChar
        omega
      · omega
      · omega
      · omega
      · omega
    · rw [if_neg hu]
      apply lowerAt_of_fixed
      · exact hu
      · omega
      · omega
      · omega
  · rw [if_neg hc] at hx
    by_cases hs : c.toNat = 0x3A3
    · rw [if_pos hs] at hx
      have e1 : lowerAt b (Char.ofNat 0x3C2) a = [Char.ofNat 0x3C2] :=
        lowerAt_ofNat_of_fixed _ (by decide) (by decide) (by decide) (by decide)
          (fun _ => by decide) b a
      have e2 : lowerAt b (Char.ofNat 0x3C3) a = [Char.ofNat 0x3C3] :=
        lowerAt_ofNat_of_fixed _ (by decide) (by decide) (by decide) (by decide)
          (fun _ => by decide) b a
      split at hx <;> rw [List.mem_singleton] at hx <;> subst hx <;> assumption
    · rw [if_neg hs] at hx
      by_cases hi : c.toNat = 0x130
      · rw [if_pos hi] at hx
        have e1 : lowerAt b 'i' a = ['i'] :=
          lowerAt_of_fixed _ (by decide) (by decide) (by decide) (fun h => absurd h (by decide))
            b a
        have e2 : lowerAt b (Char.ofNat 0x307) a = [Char.ofNat 0x307] :=
          lowerAt_ofNat_of_fixed _ (by decide) (by decide) (by decide) (by decide)
            (fun _ => by decide) b a
        simp only [List.mem_cons, List.mem_singleton, List.not_mem_nil, or_false] at hx
        rcases hx with rfl | rfl
        · exact e1
        · exact e2
      · rw [if_neg hi] at hx
        cases hm : simpleLowerCase c.toNat with
        | none =>
          rw [hm] at hx
          rw [List.mem_singleton] at hx
          subst hx
          exact lowerAt_of_fixed _ (by omega) hs hi (fun _ => hm) b a
        | some m =>
          rw [hm] at hx
          rw [List.mem_singleton] at hx
          subst hx
          obtain ⟨hv, g1, g2, g3, g4⟩ := simpleLowerCase_image _ _ hm
          exact lowerAt_ofNat_of_fixed m hv g1 g2 g3 (fun _ => g4) b a

theorem lowerAt_ne_nil (before : JSString) (c : Char) (after : JSString) :
    lowerAt before c after ≠ [] := by
  unfold lowerAt
  split
  · simp
  · split
    · split <;> simp
    · split
      · simp
      · split <;> simp

theorem toLowerCaseFrom_fixed (before s : JSString) :
    ∀ x ∈ toLowerCaseFrom before s, ∀ b a : JSString, lowerAt b x a = [x] := by
  induction s generalizing before with
  | nil => intro x hx; simp [toLowerCaseFrom] at hx
  | cons c rest ih =>
    intro x hx
    rw [toLowerCaseFrom, List.mem_append] at hx
    rcases hx with hx | hx
    · exact lowerAt_fixed before c rest x hx
    · exact ih _ x hx

theorem toLowerCaseFrom_of_fixed (before s : JSString)
    (h : ∀ x ∈ s, ∀ b a : JSString, lowerAt b x a = [x]) : toLowerCaseFrom before s = s := by
  induction s generalizing before with
  | nil => rfl
  | cons c rest ih =>
    rw [toLowerCaseFrom, h c (List.mem_cons_self _ _), ih _ fun x hx => h x (List.mem_cons_of_mem _ hx)]
    rfl

theorem toLowerCase_eq_nil_iff (s : JSString) : toLowerCase s = [] ↔ s = [] := by
  constructor
  · intro h
    cases s with
    | nil => rfl
    | cons c rest =>
      unfold toLowerCase at h
      rw [toLowerCaseFrom, List.append_eq_nil] at h
      exact absurd h.1 (lowerAt_ne_nil _ _ _)
  · rintro rfl
    rfl

theorem toLowerCase_fixed (s : JSString) :
    ∀ c ∈ toLowerCase s, hasLowerCaseForm c = false := by
  intro c hc
  have h := toLowerCaseFrom_fixed [] s c hc [] []
  simp [hasLowerCaseForm, toLowerCase, toLowerCaseFrom, h]

theorem toLowerCase_idempotent (s : JSString) : toLowerCase (toLowerCase s) = toLowerCase s :=
  toLowerCaseFrom_of_fixed [] _ (toLowerCaseFrom_fixed [] s)

theorem toLowerCase_no_upper (s : JSString) : ∀ c ∈ toLowerCase s, isUpperLatin c = false := by
  intro c hc
  have h := toLowerCaseFrom_fixed [] s c hc [] []
  by_contra hu
  rw [Bool.not_eq_false] at hu
  simp only [isUpperLatin, Bool.and_eq_true, decide_eq_true_eq] at hu
  have hlt : c.toNat < 128 := by omega
  unfold lowerAt at h
  rw [if_pos hlt, lowerChar, if_pos hu] at h
  have hv : (Char.ofNat (c.toNat + 32)).toNat = c.toNat + 32 :=
    toNat_ofNat_of_valid _ (by unfold Nat.isValidChar; omega)
  have := congrArg (fun l => l.map Char.toNat) h
  simp only [List.map_cons, List.map_nil, hv] at this
  simp at this

theorem parseInput_blank (input : JSString) (h : ∀ c ∈ input, isWhiteSpace c = true) :
    parseInput input = ⟨[], []⟩ := by
  simp [parseInput, (trim_eq_nil_iff input).2 h]

theorem parseInput_command_nonblank (input : JSString)
    (h : ∃ c ∈ input, isWhiteSpace c = false) :
    (parseInput input).command ≠ [] ∧
      toLowerCase (parseInput input).command = (parseInput input).command ∧
      ∀ c ∈ (parseInput input).command, hasLowerCaseForm c = false ∧ isUpperLatin c = false := by
  have key : ∀ word : JSString, word ≠ [] →
      toLowerCase word ≠ [] ∧ toLowerCase (toLowerCase word) = toLowerCase word ∧
        ∀ c ∈ toLowerCase word, hasLowerCaseForm c = false ∧ isUpperLatin c = false :=
    fun word hne => ⟨fun h0 => hne ((toLowerCase_eq_nil_iff _).1 h0), toLowerCase_idempotent _,
      fun c hc => ⟨toLowerCase_fixed _ c hc, toLowerCase_no_upper _ c hc⟩⟩
  by_cases hq : HasQuotedForm (trim input)
  · obtain ⟨word, text, hf | hf⟩ := hq
    · rw [parseInput_of_quotedForm input word text dquote (Or.inl rfl) hf]
      exact key word hf.choose_spec.2.1
    · rw [parseInput_of_quotedForm input word text squote (Or.inr rfl) hf]
      exact key word hf.choose_spec.2.1
  · obtain ⟨first, pairs, hp, -, -, hne, -⟩ := parseInput_plain input h hq
    rw [hp]
    exact key first hne

theorem blank_or_not (input : JSString) :
    (∀ c ∈ input, isWhiteSpace c = true) ∨ ∃ c ∈ input, isWhiteSpace c = false := by
  by_cases h : ∀ c ∈ input, isWhiteSpace c = true
  · exact Or.inl h
  · right
    push_neg at h
    obtain ⟨c, hc, hw⟩ := h
    exact ⟨c, hc, by simpa using hw⟩

/-- C10: `parseInput` returns the empty command with no arguments exactly on
the lines that are empty or made of white space only; on every other line the
command is not empty and is in lower case: `toLowerCase` leaves it as it is,
and it holds no character that has a lower-case form of its own, so none of the
letters `A`..`Z`.  So one turn of the interactive loop only prompts again,
without dispatching, exactly on the blank lines, and on every other line it
runs `processCommand` on the parsed command and arguments. -/
theorem parseInput_empty_iff_blank (input : JSString) :
    (parseInput input = ⟨[], []⟩ ↔ ∀ c ∈ input, isWhiteSpace c = true) ∧
    ((parseInput input).command = [] ↔ ∀ c ∈ input, isWhiteSpace c = true) ∧
    ((∃ c ∈ input, isWhiteSpace c = false) →
      (parseInput input).command ≠ [] ∧
      toLowerCase (parseInput input).command = (parseInput input).command ∧
      ∀ c ∈ (parseInput input).command,
        hasLowerCaseForm c = false ∧ isUpperLatin c = false) ∧
    (∀ (env : Env) (storage : Storage),
      onLine env input storage = ⟨.returned .RUNNING, storage, [.prompt]⟩ ↔
        ∀ c ∈ input, isWhiteSpace c = true) ∧
    (∀ (env : Env) (storage : Storage), (∃ c ∈ input, isWhiteSpace c = false) →
      (onLine env input storage).storage =
        (processCommand env (parseInput input).command (parseInput input).args
          storage).storage ∧
      (processCommand env (parseInput input).command (parseInput input).args storage).out <+:
        (onLine env input storage).out) := by
  have hcmd : (parseInput input).command = [] ↔ ∀ c ∈ input, isWhiteSpace c = true := by
    constructor
    · intro h0
      rcases blank_or_not input with h | h
      · exact h
      · exact absurd h0 (parseInput_command_nonblank input h).1
    · intro h
      rw [parseInput_blank input h]
  refine ⟨?_, hcmd, parseInput_command_nonblank input, ?_, ?_⟩
  · constructor
    · intro h
      exact hcmd.1 (by rw [h])
    · exact parseInput_blank input
  · intro env storage
    constructor
    · intro h
      by_contra hb
      have hne : (parseInput input).command ≠ [] := fun h0 => hb (hcmd.1 h0)
      unfold onLine at h
      simp only [hne, if_false] at h
      split at h
      · cases h
      · split at h
        · cases h
        · have hl := congrArg (fun r => r.out.length) h
          simp at hl
    · intro h
      simp [onLine, parseInput_blank input h]
  · intro env storage h
    have hne : (parseInput input).command ≠ [] := (parseInput_command_nonblank input h).1
    unfold onLine
    simp only [hne, if_false]
    split
    · exact ⟨rfl, List.prefix_refl _⟩
    · split
      · exact ⟨rfl, List.prefix_append _ _⟩
      · exact ⟨rfl, List.prefix_append _ _⟩

/-- C10, counterexample: the line made of the one character `ℂ` (U+2102,
double-struck capital C), an uppercase letter that has no lower-case form, is
not blank and yields the command `ℂ`, which holds an uppercase letter.  The
line `École` shows the other case: `É` has a lower-case form and the command is
`école`. -/
theorem uppercase_letter_kept :
    isUppercaseLetter (Char.ofNat 0x2102) = true ∧
    isWhiteSpace (Char.ofNat 0x2102) = false ∧
    toLowerCase [Char.ofNat 0x2102] = [Char.ofNat 0x2102] ∧
    parseInput [Char.ofNat 0x2102] = ⟨[Char.ofNat 0x2102], []⟩ ∧
    (∃ c ∈ (parseInput [Char.ofNat 0x2102]).command, isUppercaseLetter c = true) ∧
    isUppercaseLetter (Char.ofNat 0xC9) = true ∧
    parseInput "École".toList = ⟨"école".toList, []⟩ := by
  decide


/-! ## The dispatcher -/

theorem processCommand_add (env : Env) (args : List JSString) (storage : Storage) :
    processCommand env COMMANDS.ADD args storage =
      if args.length = 0 then
        ⟨.returned (.boolean false), storage,
          [.error "Error: Please provide a task description".toList]⟩
      else asValue (addTask env (joinWithSpace args) storage) := by
  simp [processCommand]

theorem processCommand_complete_cons (env : Env) (first : JSString) (rest : List JSString)
    (storage : Storage) :
    processCommand env COMMANDS.COMPLETE (first :: rest) storage =
      asValue (completeTask env first storage) := by
  have h : COMMANDS.COMPLETE ≠ COMMANDS.ADD ∧ COMMANDS.COMPLETE ≠ COMMANDS.LIST := by decide
  simp [processCommand, h.1, h.2]

theorem processCommand_remove_cons (env : Env) (first : JSString) (rest : List JSString)
    (storage : Storage) :
    processCommand env COMMANDS.REMOVE (first :: rest) storage =
      asValue (removeTask env first storage) := by
  have h : COMMANDS.REMOVE ≠ COMMANDS.ADD ∧ COMMANDS.REMOVE ≠ COMMANDS.LIST ∧
      COMMANDS.REMOVE ≠ COMMANDS.COMPLETE := by decide
  simp [processCommand, h.1, h.2.1, h.2.2]

theorem processCommand_no_number (env : Env) (storage : Storage) :
    processCommand env COMMANDS.COMPLETE [] storage =
        ⟨.returned (.boolean false), storage,
          [.error "Error: Please provide a task number".toList]⟩ ∧
    processCommand env COMMANDS.REMOVE [] storage =
        ⟨.returned (.boolean false), storage,
          [.error "Error: Please provide a task number".toList]⟩ := by
  have h : COMMANDS.COMPLETE ≠ COMMANDS.ADD ∧ COMMANDS.COMPLETE ≠ COMMANDS.LIST ∧
      COMMANDS.REMOVE ≠ COMMANDS.ADD ∧ COMMANDS.REMOVE ≠ COMMANDS.LIST ∧
      COMMANDS.REMOVE ≠ COMMANDS.COMPLETE := by decide
  constructor
  · simp [processCommand, h.1, h.2.1]
  · simp [processCommand, h.2.2.1, h.2.2.2.1, h.2.2.2.2]

theorem processCommand_unknown (env : Env) (command : JSString) (args : List JSString)
    (storage : Storage)
    (hadd : command ≠ "add".toList) (hlist : command ≠ "list".toList)
    (hcomplete : command ≠ "complete".toList) (hremove : command ≠ "remove".toList)
    (hhelp : command ≠ "help".toList) (hexit : command ≠ "exit".toList)
    (hquit : command ≠ "quit".toList) (hq : command ≠ "q".toList) :
    processCommand env command args storage =
      ⟨.returned (.boolean false), storage,
        [.error ("Error: Unknown command \"".toList ++ command ++ "\"".toList)] ++
          showUsage⟩ := by
  have h1 : command ≠ COMMANDS.ADD := hadd
  have h2 : command ≠ COMMANDS.LIST := hlist
  have h3 : command ≠ COMMANDS.COMPLETE := hcomplete
  have h4 : command ≠ COMMANDS.REMOVE := hremove
  have h5 : ¬ (command = "exit".toList ∨ command = "quit".toList ∨ command = "q".toList) := by
    rintro (h | h | h)
    · exact hexit h
    · exact hquit h
    · exact hq h
  unfold processCommand
  rw [if_neg h1, if_neg h2, if_neg h3, if_neg h4, if_neg hhelp, if_neg h5]

/-- C12: for every command other than `add`, `list`, `complete`, `remove`,
`help`, `exit`, `quit` and `q`, every argument list and every state of the
storage, `processCommand` returns `false`, prints the unknown-command error
followed by the usage text, and leaves the storage as it was. -/
theorem processCommand_unknown_command (env : Env) (command : JSString)
    (args : List JSString) (storage : Storage)
    (hadd : command ≠ "add".toList) (hlist : command ≠ "list".toList)
    (hcomplete : command ≠ "complete".toList) (hremove : command ≠ "remove".toList)
    (hhelp : command ≠ "help".toList) (hexit : command ≠ "exit".toList)
    (hquit : command ≠ "quit".toList) (hq : command ≠ "q".toList) :
    (processCommand env command args storage).result = .returned (.boolean false) ∧
    (processCommand env command args storage).storage = storage ∧
    (processCommand env command args storage).out =
      .error ("Error: Unknown command \"".toList ++ command ++ "\"".toList) :: showUsage := by
  rw [processCommand_unknown env command args storage hadd hlist hcomplete hremove hhelp hexit
    hquit hq]
  exact ⟨rfl, rfl, rfl⟩

/-- C12, at the command `bogus` with no argument, on a file that cannot be
read. -/
theorem processCommand_unknown_command_witness :
    (processCommand ⟨0, [], none⟩ "bogus".toList [] (.unreadable "EACCES".toList)).result =
      .returned (.boolean false) ∧
    (processCommand ⟨0, [], none⟩ "bogus".toList [] (.unreadable "EACCES".toList)).storage =
      .unreadable "EACCES".toList ∧
    (processCommand ⟨0, [], none⟩ "bogus".toList [] (.unreadable "EACCES".toList)).out =
      .error ("Error: Unknown command \"".toList ++ "bogus".toList ++ "\"".toList) ::
        showUsage :=
  processCommand_unknown_command ⟨0, [], none⟩ "bogus".toList [] (.unreadable "EACCES".toList)
    (by decide) (by decide) (by decide) (by decide) (by decide) (by decide) (by decide)
    (by decide)

theorem joinWithSpace_cons (first : JSString) (rest : List JSString) :
    joinWithSpace (first :: rest) = first ++ (rest.map fun arg => ' ' :: arg).flatten := by
  unfold joinWithSpace
  induction rest generalizing first with
  | nil => simp [List.intercalate]
  | cons r rs ih =>
    have h := ih r
    simp only [List.intercalate, List.intersperse_cons_cons, List.flatten_cons,
      List.map_cons] at h ⊢
    rw [h]
    simp

/-- C13: `processCommand("add", [])` returns `false`, prints an error and
leaves the storage as it was; with a non-empty argument list it is `addTask`
on the arguments joined with single spaces: same result, same storage
afterwards, same lines printed. -/
theorem processCommand_add_delegates (env : Env) (storage : Storage) :
    processCommand env "add".toList [] storage =
      ⟨.returned (.boolean false), storage,
        [.error "Error: Please provide a task description".toList]⟩ ∧
    (∀ (first : JSString) (rest : List JSString),
      processCommand env "add".toList (first :: rest) storage =
        asValue (addTask env (joinWithSpace (first :: rest)) storage) ∧
      (processCommand env "add".toList (first :: rest) storage).storage =
        (addTask env (joinWithSpace (first :: rest)) storage).storage ∧
      (processCommand env "add".toList (first :: rest) storage).out =
        (addTask env (joinWithSpace (first :: rest)) storage).out ∧
      (∀ b : Bool, (addTask env (joinWithSpace (first :: rest)) storage).result = .returned b →
        (processCommand env "add".toList (first :: rest) storage).result =
          .returned (.boolean b)) ∧
      joinWithSpace (first :: rest) =
        first ++ (rest.map fun arg => ' ' :: arg).flatten) := by
  refine ⟨?_, ?_⟩
  · exact (processCommand_add env [] storage).trans (by simp)
  · intro first rest
    have h : processCommand env "add".toList (first :: rest) storage =
        asValue (addTask env (joinWithSpace (first :: rest)) storage) :=
      (processCommand_add env (first :: rest) storage).trans (by simp)
    rw [h]
    refine ⟨rfl, ?_, ?_, ?_, ?_⟩
    · unfold asValue; split <;> rfl
    · unfold asValue; split <;> rfl
    · intro b hb
      unfold asValue
      rw [hb]
    · exact joinWithSpace_cons first rest

/-- C14: `complete` and `remove` with no argument return `false`, print an
error and leave the storage as it was; with arguments they are `completeTask`
and `removeTask` on the first argument, whatever the other arguments are. -/
theorem processCommand_number_delegates (env : Env) (storage : Storage) :
    processCommand env "complete".toList [] storage =
      ⟨.returned (.boolean false), storage,
        [.error "Error: Please provide a task number".toList]⟩ ∧
    processCommand env "remove".toList [] storage =
      ⟨.returned (.boolean false), storage,
        [.error "Error: Please provide a task number".toList]⟩ ∧
    (∀ (first : JSString) (rest : List JSString),
      processCommand env "complete".toList (first :: rest) storage =
        asValue (completeTask env first storage) ∧
      processCommand env "remove".toList (first :: rest) storage =
        asValue (removeTask env first storage) ∧
      (processCommand env "complete".toList (first :: rest) storage).storage =
        (completeTask env first storage).storage ∧
      (processCommand env "remove".toList (first :: rest) storage).storage =
        (removeTask env first storage).storage ∧
      (∀ b : Bool, (completeTask env first storage).result = .returned b →
        (processCommand env "complete".toList (first :: rest) storage).result =
          .returned (.boolean b)) ∧
      (∀ b : Bool, (removeTask env first storage).result = .returned b →
        (processCommand env "remove".toList (first :: rest) storage).result =
          .returned (.boolean b))) := by
  refine ⟨(processCommand_no_number env storage).1, (processCommand_no_number env storage).2, ?_⟩
  intro first rest
  have hc := processCommand_complete_cons env first rest storage
  have hr := processCommand_remove_cons env first rest storage
  change processCommand env "complete".toList (first :: rest) storage = _ at hc
  change processCommand env "remove".toList (first :: rest) storage = _ at hr
  rw [hc, hr]
  refine ⟨rfl, rfl, ?_, ?_, ?_, ?_⟩
  · unfold asValue; split <;> rfl
  · unfold asValue; split <;> rfl
  · intro b hb
    unfold asValue
    rw [hb]
  · intro b hb
    unfold asValue
    rw [hb]


/-! ## Every outcome of an operation on a stored collection -/

theorem addTask_cases (env : Env) (storage : Storage) (tasks : List Task)
    (description : JSString)
    (hread : (readTasksFromFile storage).1 = .array tasks) :
    ((addTask env description storage).result = .returned false ∧
      (addTask env description storage).storage = storage) ∨
    ((addTask env description storage).result = .returned true ∧
      (addTask env description storage).storage =
        .holds (.array (tasks ++ [createTask env description]))) := by
  cases hv : isValidTaskDescription description with
  | false => left; simp [addTask, hv]
  | true =>
    cases hw : env.writeError with
    | none => right; simp [addTask, hv, hread, writeTasksToFile, hw]
    | some message => left; simp [addTask, hv, hread, writeTasksToFile, hw]

theorem completeTask_cases (env : Env) (storage : Storage) (tasks : List Task)
    (taskNumber : JSString)
    (hread : (readTasksFromFile storage).1 = .array tasks) :
    ((completeTask env taskNumber storage).result = .returned false ∧
      (completeTask env taskNumber storage).storage = storage) ∨
    (∃ (i : Nat) (task : Task),
      tasks[i]? = some task ∧ task.status ≠ STATUS.COMPLETED ∧
      (completeTask env taskNumber storage).result = .returned true ∧
      (completeTask env taskNumber storage).storage =
        .holds (.array (tasks.set i
          ⟨task.id, task.description, STATUS.COMPLETED, task.createdAt, some env.isoNow⟩))) := by
  cases hp : parseInt taskNumber with
  | none =>
    left
    simp [completeTask, hread, validateTaskNumber_nan taskNumber tasks.length hp]
  | some n =>
    by_cases hout : n < 1 ∨ n > tasks.length
    · left
      rw [completeTask_invalid env storage tasks taskNumber n hread hp hout]
      exact ⟨rfl, rfl⟩
    · have h1 : 1 ≤ n := by omega
      have h2 : n ≤ tasks.length := by omega
      have hlt : (n - 1).toNat < tasks.length := by omega
      obtain ⟨task, htask⟩ : ∃ task, tasks[(n - 1).toNat]? = some task :=
        ⟨_, List.getElem?_eq_getElem hlt⟩
      by_cases hdone : task.status = STATUS.COMPLETED
      · left
        rw [completeTask_already env storage tasks taskNumber n _ hread hp h1 h2 htask hdone]
        exact ⟨rfl, rfl⟩
      · cases hw : env.writeError with
        | none =>
          right
          refine ⟨_, _, htask, hdone, ?_⟩
          rw [completeTask_pending env storage tasks taskNumber n _ hread hp h1 h2 htask hdone
            hw]
          exact ⟨rfl, rfl⟩
        | some message =>
          left
          have hne : n - 1 ≠ -1 := by omega
          simp [completeTask, hread,
            validateTaskNumber_valid taskNumber tasks.length n hp h1 h2,
            elementAt_of_getElem? tasks n _ h1 htask, hdone, hne, writeTasksToFile, hw]

theorem removeTask_cases (env : Env) (storage : Storage) (tasks : List Task)
    (taskNumber : JSString)
    (hread : (readTasksFromFile storage).1 = .array tasks) :
    ((removeTask env taskNumber storage).result = .returned false ∧
      (removeTask env taskNumber storage).storage = storage) ∨
    (∃ i : Nat, i < tasks.length ∧
      (removeTask env taskNumber storage).result = .returned true ∧
      (removeTask env taskNumber storage).storage = .holds (.array (tasks.eraseIdx i))) := by
  cases hp : parseInt taskNumber with
  | none =>
    left
    simp [removeTask, hread, validateTaskNumber_nan taskNumber tasks.length hp]
  | some n =>
    by_cases hout : n < 1 ∨ n > tasks.length
    · left
      rw [removeTask_invalid env storage tasks taskNumber n hread hp hout]
      exact ⟨rfl, rfl⟩
    · have h1 : 1 ≤ n := by omega
      have h2 : n ≤ tasks.length := by omega
      have hlt : (n - 1).toNat < tasks.length := by omega
      obtain ⟨task, htask⟩ : ∃ task, tasks[(n - 1).toNat]? = some task :=
        ⟨_, List.getElem?_eq_getElem hlt⟩
      cases hw : env.writeError with
      | none =>
        right
        refine ⟨_, hlt, ?_⟩
        rw [removeTask_valid env storage tasks taskNumber n _ hread hp h1 h2 htask hw]
        exact ⟨rfl, rfl⟩
      | some message =>
        left
        have hne : n - 1 ≠ -1 := by omega
        simp [removeTask, hread,
          validateTaskNumber_valid taskNumber tasks.length n hp h1 h2,
          elementAt_of_getElem? tasks n _ h1 htask, hne, writeTasksToFile, hw,
          spliceOne_valid tasks n h1 h2]

theorem listTasks_on_array (storage : Storage) (tasks : List Task)
    (hread : (readTasksFromFile storage).1 = .array tasks) :
    (listTasks storage).result = .returned () ∧ (listTasks storage).storage = storage := by
  unfold listTasks
  simp only [hread]
  split <;> exact ⟨rfl, rfl⟩


theorem asValue_storage (r : Run Bool) : (asValue r).storage = r.storage := by
  unfold asValue; split <;> rfl

theorem asValue_returned (r : Run Bool) (b : Bool) (h : r.result = .returned b) :
    (asValue r).result = .returned (.boolean b) := by
  unfold asValue; rw [h]

theorem asValue_ne_exit (r : Run Bool) : (asValue r).result ≠ .returned EXIT := by
  unfold asValue
  split
  · intro h
    simp [EXIT] at h
  · intro h
    cases h

theorem completedKept_refl (tasks : List Task) : CompletedKept tasks tasks :=
  fun _ _ h _ => Or.inr (Or.inl h)

theorem completedKept_append (tasks : List Task) (task : Task) :
    CompletedKept tasks (tasks ++ [task]) := by
  intro i t h _
  right; left
  have hlt : i < tasks.length := (List.getElem?_eq_some.1 h).1
  rw [List.getElem?_append_left hlt]
  exact h

theorem completedKept_set (tasks : List Task) (k : Nat) (old new : Task)
    (hold : tasks[k]? = some old) (hnot : old.status ≠ STATUS.COMPLETED) :
    CompletedKept tasks (tasks.set k new) := by
  intro i t h hdone
  right; left
  have hne : k ≠ i := by
    rintro rfl
    rw [hold] at h
    cases h
    exact hnot hdone
  rw [List.getElem?_set_ne hne]
  exact h

theorem completedKept_eraseIdx (tasks : List Task) (k : Nat) :
    CompletedKept tasks (tasks.eraseIdx k) := by
  intro i t h _
  rcases Nat.lt_trichotomy i k with hlt | heq | hgt
  · right; left
    rw [List.getElem?_eraseIdx_of_lt _ _ _ hlt]
    exact h
  · left; rw [heq]
  · right; right
    refine ⟨k, hgt, rfl, ?_⟩
    rw [List.getElem?_eraseIdx_of_ge _ _ _ (by omega)]
    have : i - 1 + 1 = i := by omega
    rw [this]
    exact h

/-- One command on a stored collection: the call returns, the file still holds
a collection afterwards, and the completed tasks are kept. -/
theorem processCommand_step (env : Env) (command : JSString) (args : List JSString)
    (storage : Storage) (tasks : List Task)
    (hread : (readTasksFromFile storage).1 = .array tasks) :
    (∃ value, (processCommand env command args storage).result = .returned value) ∧
    ∃ after : List Task,
      (readTasksFromFile (processCommand env command args storage).storage).1 = .array after ∧
      CompletedKept tasks after := by
  have same : ∃ after : List Task,
      (readTasksFromFile storage).1 = .array after ∧ CompletedKept tasks after :=
    ⟨tasks, hread, completedKept_refl tasks⟩
  unfold processCommand
  split
  · split
    · exact ⟨⟨_, rfl⟩, same⟩
    · rw [asValue_storage]
      rcases addTask_cases env storage tasks (joinWithSpace args) hread with ⟨hr, hs⟩ | ⟨hr, hs⟩
      · rw [hs]
        exact ⟨⟨_, asValue_returned _ _ hr⟩, same⟩
      · rw [hs]
        exact ⟨⟨_, asValue_returned _ _ hr⟩, _, rfl, completedKept_append tasks _⟩
  · split
    · obtain ⟨hr, hs⟩ := listTasks_on_array storage tasks hread
      simp only [hr, hs]
      exact ⟨⟨_, rfl⟩, same⟩
    · split
      · split
        · exact ⟨⟨_, rfl⟩, same⟩
        · rename_i first rest
          rw [asValue_storage]
          rcases completeTask_cases env storage tasks first hread with
            ⟨hr, hs⟩ | ⟨i, task, htask, hnot, hr, hs⟩
          · rw [hs]
            exact ⟨⟨_, asValue_returned _ _ hr⟩, same⟩
          · rw [hs]
            exact ⟨⟨_, asValue_returned _ _ hr⟩, _, rfl,
              completedKept_set tasks i task _ htask hnot⟩
      · split
        · split
          · exact ⟨⟨_, rfl⟩, same⟩
          · rename_i first rest
            rw [asValue_storage]
            rcases removeTask_cases env storage tasks first hread with
              ⟨hr, hs⟩ | ⟨i, hi, hr, hs⟩
            · rw [hs]
              exact ⟨⟨_, asValue_returned _ _ hr⟩, same⟩
            · rw [hs]
              exact ⟨⟨_, asValue_returned _ _ hr⟩, _, rfl, completedKept_eraseIdx tasks i⟩
        · split
          · exact ⟨⟨_, rfl⟩, same⟩
          · split
            · exact ⟨⟨_, rfl⟩, same⟩
            · exact ⟨⟨_, rfl⟩, same⟩

theorem dispatchAll_holds_collection (commands : List (Env × JSString × List JSString)) :
    ∀ (storage : Storage) (tasks : List Task),
      (readTasksFromFile storage).1 = .array tasks →
      ∃ after : List Task, (readTasksFromFile (dispatchAll commands storage)).1 = .array after := by
  induction commands with
  | nil => intro storage tasks h; exact ⟨tasks, h⟩
  | cons c cs ih =>
    intro storage tasks h
    obtain ⟨env, command, args⟩ := c
    obtain ⟨-, after, hafter, -⟩ := processCommand_step env command args storage tasks h
    exact ih _ after hafter


theorem asValue_shape (r : Run Bool) :
    (∃ b, (asValue r).result = .returned (.boolean b)) ∨ (asValue r).result = .threw := by
  unfold asValue
  split
  · exact Or.inl ⟨_, rfl⟩
  · exact Or.inr rfl

theorem processCommand_shape (env : Env) (command : JSString) (args : List JSString)
    (storage : Storage)
    (hnot : ¬ (command = "exit".toList ∨ command = "quit".toList ∨ command = "q".toList)) :
    (∃ b, (processCommand env command args storage).result = .returned (.boolean b)) ∨
      (processCommand env command args storage).result = .threw := by
  unfold processCommand
  split
  · split
    · exact Or.inl ⟨_, rfl⟩
    · exact asValue_shape _
  · split
    · dsimp only
      split
      · exact Or.inl ⟨_, rfl⟩
      · exact Or.inr rfl
    · split
      · split
        · exact Or.inl ⟨_, rfl⟩
        · exact asValue_shape _
      · split
        · split
          · exact Or.inl ⟨_, rfl⟩
          · exact asValue_shape _
        · split
          · exact Or.inl ⟨_, rfl⟩
          · exact Or.inl ⟨_, rfl⟩

theorem processCommand_alias (env : Env) (command : JSString) (args : List JSString)
    (storage : Storage)
    (h : command = "exit".toList ∨ command = "quit".toList ∨ command = "q".toList) :
    processCommand env command args storage = ⟨.returned EXIT, storage, []⟩ := by
  have hne : command ≠ COMMANDS.ADD ∧ command ≠ COMMANDS.LIST ∧ command ≠ COMMANDS.COMPLETE ∧
      command ≠ COMMANDS.REMOVE ∧ command ≠ "help".toList := by
    rcases h with rfl | rfl | rfl <;> decide
  unfold processCommand
  rw [if_neg hne.1, if_neg hne.2.1, if_neg hne.2.2.1, if_neg hne.2.2.2.1, if_neg hne.2.2.2.2,
    if_pos h]

/-- C11, with the input on which it fails: for every argument list and every
state of the storage, `processCommand` on `exit`, `quit` or `q` returns
`'EXIT'`, prints nothing and leaves the storage as it was (nothing of a read is
printed, even when the file cannot be read).  On every other command it never
returns `'EXIT'`: it returns a boolean or ends with an exception, and it returns
a boolean whenever the file is missing, unreadable, unparsable or holds a
collection of tasks.  On a file holding the JSON value `null` the command
`list` returns no boolean: an exception leaves `processCommand`. -/
theorem processCommand_exit_sentinel (env : Env) (command : JSString) (args : List JSString)
    (storage : Storage) :
    ((command = "exit".toList ∨ command = "quit".toList ∨ command = "q".toList) →
      processCommand env command args storage = ⟨.returned EXIT, storage, []⟩) ∧
    (¬ (command = "exit".toList ∨ command = "quit".toList ∨ command = "q".toList) →
      (processCommand env command args storage).result ≠ .returned EXIT ∧
      ((∃ b : Bool, (processCommand env command args storage).result =
          .returned (.boolean b)) ∨
        (processCommand env command args storage).result = .threw) ∧
      ∀ tasks : List Task, (readTasksFromFile storage).1 = .array tasks →
        ∃ b : Bool, (processCommand env command args storage).result =
          .returned (.boolean b)) ∧
    (processCommand env "list".toList args (.holds .null)).result = .threw ∧
    (∀ value : JSValue,
      (processCommand env "list".toList args (.holds .null)).result ≠ .returned value) := by
  refine ⟨processCommand_alias env command args storage, ?_, by rfl, ?_⟩
  · intro hnot
    have hshape := processCommand_shape env command args storage hnot
    refine ⟨?_, hshape, ?_⟩
    · rcases hshape with ⟨b, hb⟩ | ht
      · rw [hb]; simp [EXIT]
      · rw [ht]; intro h; cases h
    · intro tasks hread
      obtain ⟨⟨value, hv⟩, -⟩ := processCommand_step env command args storage tasks hread
      rcases hshape with hb | ht
      · exact hb
      · rw [ht] at hv; cases hv
  · intro value h
    have ht : (processCommand env "list".toList args (.holds .null)).result = .threw := by rfl
    rw [ht] at h
    cases h

/-- C17, on a storage file that holds the JSON value `null`: `list`, `add`
with a description, `complete` and `remove` with a number all end with an
exception that leaves `processCommand`; no value is returned.  On a file that
is missing, unreadable, unparsable or holds an array of tasks, `processCommand`
returns a value for every command and argument list. -/
theorem processCommand_throws_on_null (env : Env) :
    (processCommand env "list".toList [] (.holds .null)).result = .threw ∧
    (processCommand env "add".toList ["x".toList] (.holds .null)).result = .threw ∧
    (processCommand env "complete".toList ["1".toList] (.holds .null)).result = .threw ∧
    (processCommand env "remove".toList ["1".toList] (.holds .null)).result = .threw ∧
    (∀ (storage : Storage) (command : JSString) (args : List JSString),
      (storage = .missing ∨ (∃ message, storage = .unreadable message) ∨
        (∃ message, storage = .unparsable message) ∨
        ∃ tasks, storage = .holds (.array tasks)) →
      ∃ value, (processCommand env command args storage).result = .returned value) := by
  refine ⟨by rfl, by rfl, by rfl, by rfl, ?_⟩
  intro storage command args h
  have hread : ∃ tasks, (readTasksFromFile storage).1 = .array tasks := by
    rcases h with rfl | ⟨m, rfl⟩ | ⟨m, rfl⟩ | ⟨tasks, rfl⟩
    · exact ⟨[], rfl⟩
    · exact ⟨[], rfl⟩
    · exact ⟨[], rfl⟩
    · exact ⟨tasks, rfl⟩
  obtain ⟨tasks, hread⟩ := hread
  exact (processCommand_step env command args storage tasks hread).1

/-- C18: when the file holds a collection of tasks, every command dispatched
through `processCommand`, with the write succeeding or failing, leaves a
collection in which each task that was COMPLETED is either the task removed or
is found unchanged (same status, same `completedAt`), at its position or one
lower.  The same holds at every step of every sequence of commands, so no
sequence turns a completed task back to pending or completes it again. -/
theorem completed_tasks_stay_completed (storage : Storage) (tasks : List Task)
    (hread : (readTasksFromFile storage).1 = .array tasks) :
    (∀ (env : Env) (command : JSString) (args : List JSString),
      ∃ after : List Task,
        (readTasksFromFile (processCommand env command args storage).storage).1 =
          .array after ∧
        ∀ (i : Nat) (task : Task), tasks[i]? = some task →
          task.status = STATUS.COMPLETED →
          after = tasks.eraseIdx i ∨ after[i]? = some task ∨
            ∃ k, k < i ∧ after = tasks.eraseIdx k ∧ after[i - 1]? = some task) ∧
    (∀ (earlier : List (Env × JSString × List JSString)) (env : Env) (command : JSString)
        (args : List JSString),
      ∃ before after : List Task,
        (readTasksFromFile (dispatchAll earlier storage)).1 = .array before ∧
        (readTasksFromFile
          (processCommand env command args (dispatchAll earlier storage)).storage).1 =
          .array after ∧
        CompletedKept before after) := by
  constructor
  · intro env command args
    obtain ⟨-, after, hafter, hkept⟩ := processCommand_step env command args storage tasks hread
    exact ⟨after, hafter, hkept⟩
  · intro earlier env command args
    obtain ⟨before, hbefore⟩ := dispatchAll_holds_collection earlier storage tasks hread
    obtain ⟨-, after, hafter, hkept⟩ :=
      processCommand_step env command args (dispatchAll earlier storage) before hbefore
    exact ⟨before, after, hbefore, hafter, hkept⟩

/-- C18, at a collection whose first task is completed, for the command
`complete 1`: the task is found unchanged afterwards. -/
theorem completed_tasks_stay_completed_witness :
    ∃ after : List Task,
      (readTasksFromFile (processCommand ⟨0, "t9".toList, none⟩ "complete".toList
        ["1".toList] (.holds (.array [⟨1, "a".toList, STATUS.COMPLETED, "t0".toList,
          some "t1".toList⟩]))).storage).1 = .array after ∧
      ∀ (i : Nat) (task : Task),
        [(⟨1, "a".toList, STATUS.COMPLETED, "t0".toList, some "t1".toList⟩ : Task)][i]? =
          some task →
        task.status = STATUS.COMPLETED →
        after = [(⟨1, "a".toList, STATUS.COMPLETED, "t0".toList,
            some "t1".toList⟩ : Task)].eraseIdx i ∨
          after[i]? = some task ∨
          ∃ k, k < i ∧ after = [(⟨1, "a".toList, STATUS.COMPLETED, "t0".toList,
            some "t1".toList⟩ : Task)].eraseIdx k ∧ after[i - 1]? = some task :=
  (completed_tasks_stay_completed
    (.holds (.array [⟨1, "a".toList, STATUS.COMPLETED, "t0".toList, some "t1".toList⟩]))
    [⟨1, "a".toList, STATUS.COMPLETED, "t0".toList, some "t1".toList⟩] rfl).1
    ⟨0, "t9".toList, none⟩ "complete".toList ["1".toList]


/-- C15: starting with no storage file and with every write succeeding,
whatever the clock shows, the lines `add "Buy milk"`, `add "Walk dog"`,
`complete 1` and `remove 2`, parsed and dispatched in that order, each return
`true`; the file then holds exactly one task, `Buy milk` with status COMPLETED,
and `listTasks` prints it at position 1 with a total of 1. -/
theorem end_to_end_scenario (d1 d2 d3 d4 : Int) (t1 t2 t3 t4 : JSString) :
    ∃ s1 s2 s3 : Storage,
      dispatchLine ⟨d1, t1, none⟩ "add \"Buy milk\"".toList .missing =
        ⟨.returned (.boolean true), s1, [.log "✅ Task added: \"Buy milk\"".toList]⟩ ∧
      dispatchLine ⟨d2, t2, none⟩ "add \"Walk dog\"".toList s1 =
        ⟨.returned (.boolean true), s2, [.log "✅ Task added: \"Walk dog\"".toList]⟩ ∧
      dispatchLine ⟨d3, t3, none⟩ "complete 1".toList s2 =
        ⟨.returned (.boolean true), s3, [.log "✅ Task 1 marked as completed".toList]⟩ ∧
      dispatchLine ⟨d4, t4, none⟩ "remove 2".toList s3 =
        ⟨.returned (.boolean true),
          .holds (.array [⟨d1, "Buy milk".toList, STATUS.COMPLETED, t1, some t3⟩]),
          [.log "🗑️  Task 2 removed: \"Walk dog\"".toList]⟩ ∧
      listTasks (.holds (.array [⟨d1, "Buy milk".toList, STATUS.COMPLETED, t1, some t3⟩])) =
        ⟨.returned (),
          .holds (.array [⟨d1, "Buy milk".toList, STATUS.COMPLETED, t1, some t3⟩]),
          [.log "\n📋 Your Tasks:".toList, .log ruler, .log "1. ✅ Buy milk".toList,
            .log ruler, .log "Total: 1 tasks".toList]⟩ := by
  refine ⟨.holds (.array [⟨d1, "Buy milk".toList, STATUS.PENDING, t1, none⟩]),
    .holds (.array [⟨d1, "Buy milk".toList, STATUS.PENDING, t1, none⟩,
      ⟨d2, "Walk dog".toList, STATUS.PENDING, t2, none⟩]),
    .holds (.array [⟨d1, "Buy milk".toList, STATUS.COMPLETED, t1, some t3⟩,
      ⟨d2, "Walk dog".toList, STATUS.PENDING, t2, none⟩]),
    rfl, rfl, rfl, rfl, ?_⟩
  simp only [listTasks, readTasksFromFile, List.length_singleton, Nat.one_ne_zero, if_false,
    List.nil_append, List.enum, List.enumFrom, List.map_cons, List.map_nil, List.cons_append]
  rfl


/-- C16: when the stored collection is `tasks`, `listTasks` returns and leaves
the storage as it was.  For the empty collection it prints the no-tasks message
and nothing else; otherwise it prints the heading, one line per task in stored
order and the total: the line at position `k` (from 1 to the length) carries
the number `k`, then `✅` when the status of that task is COMPLETED and `⏳`
otherwise, then the description; the total is the length.  Before these lines
comes only what reading the file printed, which is nothing when the file is
missing or holds the collection. -/
theorem listTasks_renders (storage : Storage) (tasks : List Task)
    (hread : (readTasksFromFile storage).1 = .array tasks) :
    (listTasks storage).result = .returned () ∧
    (listTasks storage).storage = storage ∧
    (tasks = [] → (listTasks storage).out = (readTasksFromFile storage).2 ++
      [.log "📝 No tasks found. Add your first task with: node todo.js add \"Your task\"".toList]) ∧
    (tasks ≠ [] → ∃ lines : List JSString,
      (listTasks storage).out = (readTasksFromFile storage).2 ++
        [.log "\n📋 Your Tasks:".toList, .log ruler] ++ lines.map Output.log ++
        [.log ruler,
          .log ("Total: ".toList ++ numberToString tasks.length ++ " tasks".toList)] ∧
      lines.length = tasks.length ∧
      ∀ (k : Nat) (task : Task), tasks[k]? = some task →
        lines[k]? = some (numberToString (k + 1 : Nat) ++ ". ".toList ++
          (if task.status = STATUS.COMPLETED then "✅".toList else "⏳".toList) ++
          " ".toList ++ task.description)) ∧
    ((storage = .missing ∨ storage = .holds (.array tasks)) →
      (readTasksFromFile storage).2 = []) ∧
    "✅".toList ≠ "⏳".toList := by
  refine ⟨(listTasks_on_array storage tasks hread).1, (listTasks_on_array storage tasks hread).2,
    ?_, ?_, ?_, by decide⟩
  · intro h
    subst h
    simp [listTasks, hread]
  · intro hne
    have hlen : tasks.length ≠ 0 := fun h => hne (List.length_eq_zero.1 h)
    refine ⟨tasks.enum.map fun p => taskLine p.1 p.2, ?_, by simp, ?_⟩
    · simp [listTasks, hread, hlen, List.map_map, Function.comp_def]
    · intro k task hk
      rw [List.getElem?_map, List.getElem?_enum, hk]
      rfl
  · rintro (rfl | rfl) <;> rfl

/-- C16, at a collection of a completed and a pending task. -/
theorem listTasks_renders_witness :
    (listTasks (.holds (.array [⟨1, "a".toList, STATUS.COMPLETED, "t0".toList, some "t1".toList⟩,
      ⟨2, "b".toList, STATUS.PENDING, "t2".toList, none⟩]))).result = .returned () ∧
    (listTasks (.holds (.array [⟨1, "a".toList, STATUS.COMPLETED, "t0".toList, some "t1".toList⟩,
      ⟨2, "b".toList, STATUS.PENDING, "t2".toList, none⟩]))).storage =
      .holds (.array [⟨1, "a".toList, STATUS.COMPLETED, "t0".toList, some "t1".toList⟩,
        ⟨2, "b".toList, STATUS.PENDING, "t2".toList, none⟩]) :=
  have h := listTasks_renders
    (.holds (.array [⟨1, "a".toList, STATUS.COMPLETED, "t0".toList, some "t1".toList⟩,
      ⟨2, "b".toList, STATUS.PENDING, "t2".toList, none⟩]))
    [⟨1, "a".toList, STATUS.COMPLETED, "t0".toList, some "t1".toList⟩,
      ⟨2, "b".toList, STATUS.PENDING, "t2".toList, none⟩] rfl
  ⟨h.1, h.2.1⟩


/-! ## Task numbers that are not numerals -/

theorem isRadixDigit_ten_iff (c : Char) : isRadixDigit 10 c = isDecimalDigit c := by
  unfold isRadixDigit digitValue isDecimalDigit
  by_cases h1 : 48 ≤ c.toNat ∧ c.toNat ≤ 57
  · simp only [h1, and_self, if_true, decide_True, Bool.and_self, decide_eq_true_eq]
    omega
  · simp only [h1, if_false]
    have hd : (decide (48 ≤ c.toNat) && decide (c.toNat ≤ 57)) = false := by
      simpa using h1
    rw [hd]
    split
    · rename_i v hv
      split at hv
      · simp only [Option.some.injEq] at hv
        simp only [decide_eq_false_iff_not]
        omega
      · split at hv
        · simp only [Option.some.injEq] at hv
          simp only [decide_eq_false_iff_not]
          omega
        · cases hv
    · rfl

/-- A string whose first character is neither white space, nor a sign, nor a
digit holds no number for `parseInt`. -/
theorem parseInt_eq_none_of_head (c : Char) (rest : JSString)
    (hws : isWhiteSpace c = false) (hminus : c ≠ '-') (hplus : c ≠ '+')
    (hdigit : isDecimalDigit c = false) : parseInt (c :: rest) = none := by
  have hzero : c ≠ '0' := by
    rintro rfl
    exact absurd hdigit (by decide)
  have hx : ¬ ((c :: rest).take 2 = ['0', 'x'] ∨ (c :: rest).take 2 = ['0', 'X']) := by
    cases rest with
    | nil => simp
    | cons d ds =>
      simp only [List.take_succ_cons, List.take_zero, List.cons.injEq, and_true, not_or, not_and]
      exact ⟨fun h => absurd h hzero, fun h => absurd h hzero⟩
  have htake : (c :: rest).takeWhile (isRadixDigit 10) = [] := by
    rw [List.takeWhile_cons, isRadixDigit_ten_iff, hdigit]
    rfl
  unfold parseInt
  simp only [List.dropWhile_cons, hws, Bool.false_eq_true, if_false, List.head?_cons,
    Option.some.injEq, hminus, hplus, or_self, hx, decide_False, htake]
  simp

theorem completeTask_in_range (env : Env) (storage : Storage) (tasks : List Task)
    (taskNumber : JSString) (n : Int) (task : Task)
    (hread : (readTasksFromFile storage).1 = .array tasks)
    (hparse : parseInt taskNumber = some n) (h1 : 1 ≤ n) (h2 : n ≤ tasks.length)
    (htask : tasks[(n - 1).toNat]? = some task) :
    (completeTask env taskNumber storage).result =
      .returned (decide (task.status ≠ STATUS.COMPLETED) && env.writeError.isNone) ∧
    (completeTask env taskNumber storage).storage =
      (if task.status ≠ STATUS.COMPLETED ∧ env.writeError = none then
        .holds (.array (tasks.set (n - 1).toNat
          ⟨task.id, task.description, STATUS.COMPLETED, task.createdAt, some env.isoNow⟩))
      else storage) := by
  by_cases hdone : task.status = STATUS.COMPLETED
  · rw [completeTask_already env storage tasks taskNumber n task hread hparse h1 h2 htask hdone]
    simp [hdone]
  · cases hw : env.writeError with
    | none =>
      rw [completeTask_pending env storage tasks taskNumber n task hread hparse h1 h2 htask
        hdone hw]
      simp [hdone]
    | some message =>
      have hne : n - 1 ≠ -1 := by omega
      simp [completeTask, hread, validateTaskNumber_valid taskNumber tasks.length n hparse h1 h2,
        elementAt_of_getElem? tasks n task h1 htask, hdone, hne, writeTasksToFile, hw]

theorem removeTask_in_range (env : Env) (storage : Storage) (tasks : List Task)
    (taskNumber : JSString) (n : Int)
    (hread : (readTasksFromFile storage).1 = .array tasks)
    (hparse : parseInt taskNumber = some n) (h1 : 1 ≤ n) (h2 : n ≤ tasks.length) :
    (removeTask env taskNumber storage).result = .returned env.writeError.isNone ∧
    (removeTask env taskNumber storage).storage =
      (if env.writeError = none then .holds (.array (tasks.eraseIdx (n - 1).toNat))
      else storage) := by
  have hlt : (n - 1).toNat < tasks.length := by omega
  obtain ⟨task, htask⟩ : ∃ task, tasks[(n - 1).toNat]? = some task :=
    ⟨_, List.getElem?_eq_getElem hlt⟩
  cases hw : env.writeError with
  | none =>
    rw [removeTask_valid env storage tasks taskNumber n task hread hparse h1 h2 htask hw]
    simp
  | some message =>
    have hne : n - 1 ≠ -1 := by omega
    simp [removeTask, hread, validateTaskNumber_valid taskNumber tasks.length n hparse h1 h2,
      elementAt_of_getElem? tasks n task h1 htask, hne, writeTasksToFile, hw,
      spliceOne_valid tasks n h1 h2]

/-- C19, as amended: when the stored collection is `tasks` and `parseInt` reads
no number from the argument (as from one that starts, like `abc`, with a
character that is neither white space, nor a sign, nor a digit) or reads a
number outside `[1, length]`, `completeTask` and `removeTask` print the
invalid-number error, return `false` and leave the storage as it was.  When
`parseInt` reads a number `n` in `[1, length]` from the argument, numeral or
not, nothing is printed by the validation, the index is `n - 1`, and
`completeTask` and `removeTask` return the same result and leave the same
storage as for the numeral of `n`; `1abc` and `1.5` are read as 1. -/
theorem unparsable_task_number_rejected (env : Env) (storage : Storage) (tasks : List Task)
    (taskNumber : JSString)
    (hread : (readTasksFromFile storage).1 = .array tasks) :
    ((parseInt taskNumber = none ∨
        ∃ n : Int, parseInt taskNumber = some n ∧ (n < 1 ∨ n > tasks.length)) →
      completeTask env taskNumber storage =
        ⟨.returned false, storage, (readTasksFromFile storage).2 ++
          [.error ("Error: Invalid task number. Please use a number between 1 and ".toList ++
            numberToString tasks.length)]⟩ ∧
      removeTask env taskNumber storage =
        ⟨.returned false, storage, (readTasksFromFile storage).2 ++
          [.error ("Error: Invalid task number. Please use a number between 1 and ".toList ++
            numberToString tasks.length)]⟩) ∧
    (∀ n : Int, parseInt taskNumber = some n → 1 ≤ n → n ≤ tasks.length →
      validateTaskNumber taskNumber tasks.length = (n - 1, []) ∧
      (completeTask env taskNumber storage).result =
        (completeTask env (numberToString n) storage).result ∧
      (completeTask env taskNumber storage).storage =
        (completeTask env (numberToString n) storage).storage ∧
      (removeTask env taskNumber storage).result =
        (removeTask env (numberToString n) storage).result ∧
      (removeTask env taskNumber storage).storage =
        (removeTask env (numberToString n) storage).storage) ∧
    (∀ (c : Char) (rest : JSString), isWhiteSpace c = false → c ≠ '-' → c ≠ '+' →
      isDecimalDigit c = false → parseInt (c :: rest) = none) ∧
    parseInt [] = none ∧
    parseInt "1abc".toList = some 1 ∧ parseInt "1.5".toList = some 1 := by
  refine ⟨?_, ?_, parseInt_eq_none_of_head, by decide, by decide, by decide⟩
  · intro hbad
    constructor
    · rcases hbad with hnan | ⟨n, hn, hout⟩
      · simp [completeTask, hread, validateTaskNumber_nan taskNumber tasks.length hnan]
      · exact completeTask_invalid env storage tasks taskNumber n hread hn hout
    · rcases hbad with hnan | ⟨n, hn, hout⟩
      · simp [removeTask, hread, validateTaskNumber_nan taskNumber tasks.length hnan]
      · exact removeTask_invalid env storage tasks taskNumber n hread hn hout
  · intro n hparse h1 h2
    have hlt : (n - 1).toNat < tasks.length := by omega
    obtain ⟨task, htask⟩ : ∃ task, tasks[(n - 1).toNat]? = some task :=
      ⟨_, List.getElem?_eq_getElem hlt⟩
    have hnum := parseInt_numberToString n
    have c1 := completeTask_in_range env storage tasks taskNumber n task hread hparse h1 h2 htask
    have c2 := completeTask_in_range env storage tasks _ n task hread hnum h1 h2 htask
    have r1 := removeTask_in_range env storage tasks taskNumber n hread hparse h1 h2
    have r2 := removeTask_in_range env storage tasks _ n hread hnum h1 h2
    exact ⟨validateTaskNumber_valid taskNumber tasks.length n hparse h1 h2,
      c1.1.trans c2.1.symm, c1.2.trans c2.2.symm, r1.1.trans r2.1.symm, r1.2.trans r2.2.symm⟩

/-- C19 as amended, at the arguments `abc` and `1abc` on a collection of one
task. -/
theorem unparsable_task_number_rejected_witness :
    completeTask ⟨0, "t9".toList, none⟩ "abc".toList
        (.holds (.array [⟨1, "a".toList, STATUS.PENDING, "t0".toList, none⟩])) =
      ⟨.returned false, .holds (.array [⟨1, "a".toList, STATUS.PENDING, "t0".toList, none⟩]),
        [.error ("Error: Invalid task number. Please use a number between 1 and ".toList ++
          numberToString (1 : Nat))]⟩ ∧
    (completeTask ⟨0, "t9".toList, none⟩ "1abc".toList
        (.holds (.array [⟨1, "a".toList, STATUS.PENDING, "t0".toList, none⟩]))).result =
      (completeTask ⟨0, "t9".toList, none⟩ (numberToString 1)
        (.holds (.array [⟨1, "a".toList, STATUS.PENDING, "t0".toList, none⟩]))).result :=
  have h := unparsable_task_number_rejected ⟨0, "t9".toList, none⟩
    (.holds (.array [⟨1, "a".toList, STATUS.PENDING, "t0".toList, none⟩]))
    [⟨1, "a".toList, STATUS.PENDING, "t0".toList, none⟩]
  ⟨((h "abc".toList rfl).1 (Or.inl (by decide))).1,
    ((h "1abc".toList rfl).2.1 1 (by decide) (by decide) (by decide)).2.1⟩

/-- C19 as stated fails: on a collection of one pending task, with the write
succeeding, `completeTask("1abc")` returns `true` and completes the task, and
`removeTask("1.5")` returns `true` and removes it; no invalid-number error is
printed. -/
theorem non_numeral_task_number_accepted :
    completeTask ⟨0, "t9".toList, none⟩ "1abc".toList
        (.holds (.array [⟨1, "a".toList, STATUS.PENDING, "t0".toList, none⟩])) =
      ⟨.returned true,
        .holds (.array [⟨1, "a".toList, STATUS.COMPLETED, "t0".toList, some "t9".toList⟩]),
        [.log "✅ Task 1abc marked as completed".toList]⟩ ∧
    removeTask ⟨0, "t9".toList, none⟩ "1.5".toList
        (.holds (.array [⟨1, "a".toList, STATUS.PENDING, "t0".toList, none⟩])) =
      ⟨.returned true, .holds (.array []),
        [.log "🗑️  Task 1.5 removed: \"a\"".toList]⟩ := by
  decide


/-! ## A word followed by an empty pair of quotes -/

theorem splitWhiteSpace_word_then_token (word token : JSString)
    (hword : ∀ c ∈ word, isWhiteSpace c = false)
    (htoken : ∀ c ∈ token, isWhiteSpace c = false) (hne : token ≠ []) :
    splitWhiteSpace (word ++ ' ' :: token) = [word, token] := by
  have htok : ∀ t : JSString, (∀ c ∈ t, isWhiteSpace c = false) → splitWhiteSpace t = [t] := by
    intro t
    induction t with
    | nil => intro _; rfl
    | cons c cs ih =>
      intro h
      exact splitWhiteSpace_other cs cs [] (h c (by simp))
        (ih fun d hd => h d (List.mem_cons_of_mem _ hd))
  induction word with
  | nil =>
    obtain ⟨d, ds, rfl⟩ := List.exists_cons_of_ne_nil hne
    rw [List.nil_append,
      splitWhiteSpace_ws_other ds (by decide : isWhiteSpace ' ' = true) (htoken d (by simp)),
      htok (d :: ds) htoken]
  | cons c cs ih =>
    exact splitWhiteSpace_other _ cs [token] (hword c (by simp))
      (ih fun d hd => hword d (List.mem_cons_of_mem _ hd))

theorem matchQuoted_empty_pair (regexQuote quote : Char) (word : JSString)
    (hword : ∀ c ∈ word, isWordChar c = true) (hq : isWhiteSpace quote = false) :
    matchQuoted regexQuote (word ++ ' ' :: [quote, quote]) = none := by
  have hsp : isWordChar ' ' = false := by decide
  obtain ⟨t1, d1⟩ := takeWhile_dropWhile_stop isWordChar word ' ' [quote, quote] hword hsp
  have t2 : (' ' :: [quote, quote]).takeWhile isWhiteSpace = [' '] := by
    simp [List.takeWhile_cons, hq, (by decide : isWhiteSpace ' ' = true)]
  have d2 : (' ' :: [quote, quote]).dropWhile isWhiteSpace = [quote, quote] := by
    simp [List.dropWhile_cons, hq, (by decide : isWhiteSpace ' ' = true)]
  unfold matchQuoted
  simp only [t1, d1, t2, d2]
  by_cases hw : word = []
  · simp [hw]
  · by_cases hr : quote = regexQuote
    · simp [hw, hr]
    · simp [hw, hr]

theorem parseInput_empty_pair (word : JSString) (quote : Char)
    (hquote : quote = dquote ∨ quote = squote)
    (hne : word ≠ []) (hword : ∀ c ∈ word, isWordChar c = true) :
    parseInput (word ++ ' ' :: [quote, quote]) = ⟨toLowerCase word, [[quote, quote]]⟩ := by
  have hq : isWhiteSpace quote = false := by
    rcases hquote with rfl | rfl <;> decide
  have hline : word ++ ' ' :: [quote, quote] ≠ [] := by simp
  have htrim : trim (word ++ ' ' :: [quote, quote]) = word ++ ' ' :: [quote, quote] := by
    apply trim_eq_self _ hline
    · obtain ⟨c, cs, rfl⟩ := List.exists_cons_of_ne_nil hne
      simp only [List.cons_append, List.head_cons]
      exact isWhiteSpace_of_isWordChar (hword c (by simp))
    · have : (word ++ ' ' :: [quote, quote]).getLast hline = quote := by
        simp
      rw [this]; exact hq
  have hsplit := splitWhiteSpace_word_then_token word [quote, quote]
    (fun c hc => isWhiteSpace_of_isWordChar (hword c hc))
    (fun c hc => by
      have : c = quote := by simpa using hc
      rw [this]; exact hq)
    (by simp)
  unfold parseInput
  simp only [htrim, hline, if_false, matchQuoted_empty_pair dquote quote word hword hq,
    matchQuoted_empty_pair squote quote word hword hq, Option.orElse, hsplit, List.headD_cons,
    List.tail_cons]

/-- C20, as amended: for every word `w` of `[A-Za-z0-9_]`, the line formed by
`w`, a space and an empty pair of double or single quotes has not the quoted
form, whose text must not be empty: `parseInput` cuts it at the space, the
command is `w` in lower case and the one argument is the pair of quote
characters itself.  Dispatching `add` with that argument calls `addTask` on the
two quote characters, a description that is not empty after trimming. -/
theorem parseInput_empty_quotes (word : JSString) (quote : Char)
    (hquote : quote = dquote ∨ quote = squote)
    (hne : word ≠ []) (hword : ∀ c ∈ word, isWordChar c = true) :
    parseInput (word ++ ' ' :: [quote, quote]) = ⟨toLowerCase word, [[quote, quote]]⟩ ∧
    ¬ HasQuotedForm (trim (word ++ ' ' :: [quote, quote])) ∧
    (∀ (env : Env) (storage : Storage),
      processCommand env "add".toList [[quote, quote]] storage =
        asValue (addTask env [quote, quote] storage)) ∧
    isValidTaskDescription [quote, quote] = true ∧
    trim [quote, quote] = [quote, quote] := by
  have hq : isWhiteSpace quote = false := by
    rcases hquote with rfl | rfl <;> decide
  refine ⟨parseInput_empty_pair word quote hquote hne hword, ?_, ?_, ?_, ?_⟩
  · have hline : word ++ ' ' :: [quote, quote] ≠ [] := by simp
    have htrim : trim (word ++ ' ' :: [quote, quote]) = word ++ ' ' :: [quote, quote] := by
      apply trim_eq_self _ hline
      · obtain ⟨c, cs, rfl⟩ := List.exists_cons_of_ne_nil hne
        simp only [List.cons_append, List.head_cons]
        exact isWhiteSpace_of_isWordChar (hword c (by simp))
      · have : (word ++ ' ' :: [quote, quote]).getLast hline = quote := by
          simp
        rw [this]; exact hq
    rw [htrim, hasQuotedForm_iff, matchQuoted_empty_pair dquote quote word hword hq,
      matchQuoted_empty_pair squote quote word hword hq]
    simp
  · intro env storage
    have hjoin : joinWithSpace [[quote, quote]] = [quote, quote] := by
      rw [joinWithSpace_cons]; simp
    exact (processCommand_add env [[quote, quote]] storage).trans (by simp [hjoin])
  · rcases hquote with rfl | rfl <;> decide
  · rcases hquote with rfl | rfl <;> decide

/-- C20 as amended, at the word `add` with double quotes. -/
theorem parseInput_empty_quotes_witness :
    parseInput ("add".toList ++ ' ' :: [dquote, dquote]) =
      ⟨toLowerCase "add".toList, [[dquote, dquote]]⟩ :=
  (parseInput_empty_quotes "add".toList dquote (Or.inl rfl) (by decide) (by decide)).1

/-- C20 as stated fails: the line `add ""` is parsed to the command `add` with
the two quote characters as its one argument, not with the empty string, and
dispatching it on a missing file with the write succeeding returns `true` and
stores a task whose description is the two quote characters. -/
theorem empty_quotes_add_a_task :
    parseInput "add \"\"".toList = ⟨"add".toList, ["\"\"".toList]⟩ ∧
    parseInput "add \"\"".toList ≠ ⟨"add".toList, [[]]⟩ ∧
    dispatchLine ⟨7, "t9".toList, none⟩ "add \"\"".toList .missing =
      ⟨.returned (.boolean true),
        .holds (.array [⟨7, "\"\"".toList, STATUS.PENDING, "t9".toList, none⟩]),
        [.log "✅ Task added: \"\"\"\"".toList]⟩ := by
  decide


end Todo
